import Mathlib

/-! MAX7360-RK: key FIFO decoder and register access layer

A shallow embedding of `src/MAX7360-RK.h` and `src/MAX7360-RK.cpp`.

* `uint8_t` values are natural numbers; the theorems carry the bound `< 256`.
* A C++ object is a structure and a member function takes the object as its
  first argument and returns the updated object (with the returned value, when
  there is one, in the first component of a pair).
* `~x` passed as a `uint8_t` argument is `complement8 x`.
-/

namespace MAX7360RK

/-! ## Bytes -/

/-- The value of `~x` once converted back to `uint8_t`: the operand is promoted to
`int`, complemented (giving `-x - 1`), and reduced modulo `2^8`. -/
def complement8 (x : Nat) : Nat := ((-(x : Int) - 1) % 256).toNat

/-- The conversion `(uint8_t) v` of an `int`. -/
def toUint8 (v : Int) : Nat := (v % 256).toNat

/-! ## Key mapping tables -/

/-- A `MAX7360KeyMappingTable`: the `table` pointer is the list of the bytes it points to,
`tableSize` the size given to the constructor. A null `keyMapping` pointer is `none`. -/
structure MAX7360KeyMappingTable where
  table : List Nat
  tableSize : Nat
deriving DecidableEq, Repr

/-! ## MAX7360Key -/

def FIFO_EMPTY : Nat := 0b00111111
def FIFO_OVERFLOW : Nat := 0b01111111
def FIFO_KEY63_PRESSED : Nat := 0b10111111
def FIFO_KEY63_RELEASED : Nat := 0b11111111
def FIFO_KEY_REPEAT_MORE : Nat := 0b00111110
def FIFO_KEY_REPEAT_DONE : Nat := 0b01111110
def FIFO_KEY62_PRESSED : Nat := 0b10111110
def FIFO_KEY62_RELEASED : Nat := 0b11111110

def FIFO_EMPTY_MASK : Nat := 0b10000000
def FIFO_RELEASED_MASK : Nat := 0b01000000
def FIFO_KEY_MASK : Nat := 0b00111111

def FIFO_KEY_NONE : Nat := 0xff

/-- The data members of `MAX7360Key` with their default member initialisers. -/
structure MAX7360Key where
  keyMapping : Option MAX7360KeyMappingTable := none
  rawValue : Nat := 0x00
  rawKey : Nat := FIFO_KEY_NONE
  more : Bool := false
  released : Bool := false
deriving DecidableEq, Repr

namespace MAX7360Key

/-- The member function `void MAX7360Key::fromRawValue(uint8_t rawValue)`. The `switch` is the
chain of tests in the order of its `case` labels (the labels are pairwise different, so the
order is immaterial); each branch assigns exactly the members the source assigns. -/
def fromRawValue (self : MAX7360Key) (rawValue : Nat) : MAX7360Key :=
  let self := { self with rawValue := rawValue }
  if rawValue = FIFO_EMPTY then
    { self with rawKey := FIFO_KEY_NONE, more := false, released := false }
  else if rawValue = FIFO_OVERFLOW then
    { self with rawKey := FIFO_KEY_NONE, more := true, released := false }
  else if rawValue = FIFO_KEY63_PRESSED then
    { self with rawKey := 63, more := true }
  else if rawValue = FIFO_KEY63_RELEASED then
    { self with rawKey := 63, more := true, released := true }
  else if rawValue = FIFO_KEY62_PRESSED then
    { self with rawKey := 62, more := true }
  else if rawValue = FIFO_KEY62_RELEASED then
    { self with rawKey := 63, more := true, released := true }
  else if rawValue = FIFO_KEY_REPEAT_MORE then
    { self with rawKey := FIFO_KEY_NONE, more := true, released := false }
  else if rawValue = FIFO_KEY_REPEAT_DONE then
    { self with rawKey := FIFO_KEY_NONE, more := false, released := false }
  else
    { self with
      more := decide ((rawValue &&& FIFO_EMPTY_MASK) = 0)
      released := decide ((rawValue &&& FIFO_RELEASED_MASK) ≠ 0)
      rawKey := rawValue &&& FIFO_KEY_MASK }

/-- The constructor `MAX7360Key(MAX7360KeyMappingBase *keyMapping, uint8_t rawValue)`: the
other members start from their default initialisers, then `fromRawValue` runs. -/
def construct (keyMapping : Option MAX7360KeyMappingTable) (rawValue : Nat) : MAX7360Key :=
  fromRawValue { keyMapping := keyMapping } rawValue

def getRawValue (self : MAX7360Key) : Nat := self.rawValue

def isEmpty (self : MAX7360Key) : Bool := self.rawValue == FIFO_EMPTY

def isOverflow (self : MAX7360Key) : Bool := self.rawValue == FIFO_OVERFLOW

def getRawKey (self : MAX7360Key) : Nat := self.rawKey

def hasKey (self : MAX7360Key) : Bool := self.rawKey != FIFO_KEY_NONE

def hasMore (self : MAX7360Key) : Bool := self.more

def isReleased (self : MAX7360Key) : Bool := self.released

def isKeyRepeat (self : MAX7360Key) : Bool :=
  self.rawValue == FIFO_KEY_REPEAT_MORE || self.rawValue == FIFO_KEY_REPEAT_DONE

end MAX7360Key

/-- The eight byte values that `fromRawValue` treats in a `case` of their own. -/
def specialBytes : List Nat := [0x3F, 0x7F, 0xBF, 0xFF, 0x3E, 0x7E, 0xBE, 0xFE]

/-- The four byte values that stand for no key. -/
def markerBytes : List Nat := [0x3F, 0x7F, 0x3E, 0x7E]

/-! ## The transport -/

/-- Modelled from the spec: the two-wire transport `TwoWire` (declared in `Particle.h`, which is
not among the sources), together with the chip behind it, as the byte-addressable register
file the spec describes. `regs` is the content of every register address, `stat n` the status
the `n`-th `endTransmission` reports (0 is success) and `count` the number of
`endTransmission` calls made so far. `txAddr` and `txBuf` are the pending transmission,
`pointer` the register address selected by the last successful transmission, and `rxBuf` the
bytes fetched by `requestFrom` and not read yet. -/
structure TwoWire where
  regs : Nat → Nat
  stat : Nat → Int
  count : Nat
  txAddr : Nat
  txBuf : List Nat
  pointer : Nat
  rxBuf : List Nat

namespace TwoWire

/-- Modelled from the spec: `beginTransmission(address)` opens an empty transmission. -/
def beginTransmission (w : TwoWire) (address : Nat) : TwoWire :=
  { w with txAddr := address, txBuf := [] }

/-- Modelled from the spec: `write(uint8_t)` queues one byte. -/
def write (w : TwoWire) (b : Nat) : TwoWire :=
  { w with txBuf := w.txBuf ++ [b % 256] }

/-- Modelled from the spec: `endTransmission(stop)` sends the queued bytes and returns the
transport's status. On success the first byte selects the register and a second byte, when
there is one, is stored in it; a failed transmission leaves the register file unchanged. -/
def endTransmission (w : TwoWire) (_stop : Bool) : Int × TwoWire :=
  let s := w.stat w.count
  let w := { w with count := w.count + 1 }
  if s = 0 then
    match w.txBuf with
    | [] => (s, w)
    | [r] => (s, { w with pointer := r, txBuf := [] })
    | r :: v :: _ => (s, { w with pointer := r, regs := Function.update w.regs r v, txBuf := [] })
  else
    (s, { w with txBuf := [] })

/-- Modelled from the spec: `requestFrom(address, quantity, stop)` fetches `quantity` bytes
starting at the selected register. -/
def requestFrom (w : TwoWire) (address : Nat) (quantity : Nat) (_stop : Bool) : TwoWire :=
  { w with txAddr := address,
           rxBuf := (List.range quantity).map (fun i => w.regs (w.pointer + i) % 256) }

/-- Modelled from the spec: `read()` returns the next fetched byte, or -1 when there is none. -/
def read (w : TwoWire) : Int × TwoWire :=
  match w.rxBuf with
  | [] => (-1, w)
  | b :: rest => ((b : Int), { w with rxBuf := rest })

end TwoWire

/-! ## MAX7360 -/

def REG_KEYS_FIFO : Nat := 0x00

def REG_CONFIG : Nat := 0x01
def REG_CONFIG_SLEEP_MASK : Nat := 0x80
def REG_CONFIG_INTERRUPT_MASK : Nat := 0x20
def REG_CONFIG_KEY_RELEASE_MASK : Nat := 0x08
def REG_CONFIG_AUTO_WAKEUP_MASK : Nat := 0x02
def REG_CONFIG_TIMEOUT_DISABLE_MASK : Nat := 0x01

def REG_DEBOUNCE : Nat := 0x02
def REG_DEBOUNCE_MS_OFFSET : Nat := 9
def REG_DEBOUNCE_MASK : Nat := 0x1f
def REG_GPO_ENABLE_MASK : Nat := 0xe0
def REG_GPO_DISABLED : Nat := 0
def REG_GPO_ENABLE_7 : Nat := 1 <<< 5
def REG_GPO_ENABLE_76 : Nat := 2 <<< 5
def REG_GPO_ENABLE_765 : Nat := 3 <<< 5
def REG_GPO_ENABLE_7654 : Nat := 4 <<< 5
def REG_GPO_ENABLE_76543 : Nat := 5 <<< 5
def REG_GPO_ENABLE_765432 : Nat := 6 <<< 5

def REG_KEY_SWITCH_INTERRUPT : Nat := 0x03
def REG_GPO_CONTROL : Nat := 0x04
def REG_AUTO_REPEAT : Nat := 0x05
def REG_AUTO_SLEEP : Nat := 0x06

def REG_GPIO_CONFIG : Nat := 0x40
def REG_GPIO_CONFIG_ROTARY_MASK : Nat := 0x80
def REG_GPIO_CONFIG_I2C_TIMEOUT_MASK : Nat := 0x20
def REG_GPIO_CONFIG_ENABLE_MASK : Nat := 0x10
def REG_GPIO_CONFIG_RESET_MASK : Nat := 0x08
def REG_GPIO_CONFIG_FADE_TIME_MASK : Nat := 0x07

def REG_PORT_CONFIG : Nat := 0x58
def REG_PORT_INTERRUPT_MASK : Nat := 0x80
def REG_PORT_EDGE_MASK : Nat := 0x40
def REG_PORT_COMMON_PWM_MASK : Nat := 0x20
def REG_PORT_BLINK_PERIOD_MASK : Nat := 0x1c
def REG_PORT_BLINK_ON_TIME_MASK : Nat := 0x03

/-- The data members of `MAX7360`. The reference member `wire` is the state of the transport
it refers to. -/
structure MAX7360 where
  addr : Nat
  wire : TwoWire
  keyMapping : Option MAX7360KeyMappingTable := none

namespace MAX7360

/-- The constructor `MAX7360(uint8_t addr, TwoWire &wire) : addr(addr), wire(wire)`. The member
`addr` is initialised from the parameter; inside the body the name `addr` is the parameter,
which hides the member, so the body's assignment changes the parameter only. -/
def construct (addr : Nat) (wire : TwoWire) : MAX7360 :=
  let self : MAX7360 := { addr := addr, wire := wire }
  let _addr := if addr < 0x4 then addr ||| 0x30 else addr
  self

/-- The member function `uint8_t MAX7360::readRegister(uint8_t reg)`. -/
def readRegister (self : MAX7360) (reg : Nat) : Nat × MAX7360 :=
  let wire := self.wire.beginTransmission self.addr
  let wire := wire.write reg
  let wire := (wire.endTransmission false).2
  let wire := wire.requestFrom self.addr 1 true
  let (r, wire) := wire.read
  let value := toUint8 r
  (value, { self with wire := wire })

/-- The member function `bool MAX7360::writeRegister(uint8_t reg, uint8_t value)`. -/
def writeRegister (self : MAX7360) (reg value : Nat) : Bool × MAX7360 :=
  let wire := self.wire.beginTransmission self.addr
  let wire := wire.write reg
  let wire := wire.write value
  let (stat, wire) := wire.endTransmission true
  (decide (stat = 0), { self with wire := wire })

/-- The member function `bool MAX7360::setRegisterMask(uint8_t reg, uint8_t andValue,
uint8_t orValue)`. -/
def setRegisterMask (self : MAX7360) (reg andValue orValue : Nat) : Bool × MAX7360 :=
  let (rawValue, self) := self.readRegister reg
  let rawValue := (rawValue &&& andValue) % 256
  let rawValue := (rawValue ||| orValue) % 256
  self.writeRegister reg rawValue

/-- The member function `bool MAX7360::setRegisterBitmask(uint8_t reg, uint8_t bitMask,
bool set)`. -/
def setRegisterBitmask (self : MAX7360) (reg bitMask : Nat) (set : Bool) : Bool × MAX7360 :=
  if set then
    self.setRegisterMask reg 0xff bitMask
  else
    self.setRegisterMask reg (complement8 bitMask) 0

end MAX7360

/-- A register file in which every register holds `0x5A` and every transmission succeeds. -/
def sampleWire : TwoWire :=
  { regs := fun _ => 0x5A, stat := fun _ => 0, count := 0, txAddr := 0, txBuf := [],
    pointer := 0, rxBuf := [] }

/-- A driver at bus address `0x38` on `sampleWire`. -/
def sampleDriver : MAX7360 := MAX7360.construct 0x38 sampleWire

/-- A key object that has decoded the release of key 63 (`0xFF`) before. -/
def releasedKey : MAX7360Key := MAX7360Key.construct none 0xFF

/-! ## Key mapping tables: the member functions -/

namespace MAX7360KeyMappingTable

/-- The member function `char MAX7360KeyMappingTable::rawToReadable(uint8_t rawValue)`. A `char` is
the value of its byte; `table[rawValue]` is the entry of the list at that index. -/
def rawToReadable (self : MAX7360KeyMappingTable) (rawValue : Nat) : Nat :=
  if rawValue < self.tableSize then
    self.table.getD rawValue 0
  else
    0

/-- The `for` loop of `readableToRaw`, entered at index `ii` with `n` iterations left
(`n = tableSize - ii`): the first index whose entry equals `c` is returned, converted to
`uint8_t`; when the iterations are used up the statement after the loop returns
`FIFO_KEY_NONE`. -/
def readableToRawLoop (table : List Nat) (c : Nat) : Nat → Nat → Nat
  | _, 0 => FIFO_KEY_NONE
  | ii, n + 1 =>
    if table.getD ii 0 = c then
      ii % 256
    else
      readableToRawLoop table c (ii + 1) n

/-- The member function `uint8_t MAX7360KeyMappingTable::readableToRaw(char c)`. -/
def readableToRaw (self : MAX7360KeyMappingTable) (c : Nat) : Nat :=
  readableToRawLoop self.table c 0 self.tableSize

end MAX7360KeyMappingTable

/-- The array `_phoneTable[24]`. -/
def _phoneTable : List Nat := [
  '1'.toNat, '4'.toNat, '7'.toNat, '*'.toNat, 0, 0, 0, 0,
  '2'.toNat, '5'.toNat, '9'.toNat, '0'.toNat, 0, 0, 0, 0,
  '3'.toNat, '6'.toNat, '9'.toNat, '#'.toNat, 0, 0, 0, 0 ]

/-- The constructor `MAX7360KeyMappingPhone()`, which passes `_phoneTable` and
`sizeof(_phoneTable)` to the table constructor. -/
def MAX7360KeyMappingPhone : MAX7360KeyMappingTable :=
  { table := _phoneTable, tableSize := 24 }

/-- The member function `char MAX7360Key::getMappedKey() const`. The sum `'0' + rawKey` is
converted to `char` on return. -/
def MAX7360Key.getMappedKey (self : MAX7360Key) : Nat :=
  if self.rawKey ≠ FIFO_KEY_NONE then
    match self.keyMapping with
    | some keyMapping => keyMapping.rawToReadable self.rawKey
    | none => ('0'.toNat + self.rawKey) % 256
  else
    0

/-! ## MAX7360: the configuration functions -/

namespace MAX7360

/-- The member function `bool MAX7360::setConfigResetGpio()`. -/
def setConfigResetGpio (self : MAX7360) : Bool × MAX7360 :=
  self.setRegisterBitmask REG_GPIO_CONFIG REG_GPIO_CONFIG_RESET_MASK true

/-- The loop `while(readRegister(REG_KEYS_FIFO) != MAX7360Key::FIFO_EMPTY) { }` of
`resetRegisterDefaults`, run for at most `fuel` reads: `none` when the FIFO register still
does not read as empty after that many reads. -/
def drainFifo : Nat → MAX7360 → Option MAX7360
  | 0, _ => none
  | fuel + 1, self =>
    let (value, self) := self.readRegister REG_KEYS_FIFO
    if value ≠ FIFO_EMPTY then
      drainFifo fuel self
    else
      some self

/-- The member function `bool MAX7360::resetRegisterDefaults()`, its loop bounded by `fuel`.
The result of every `writeRegister` and of `setConfigResetGpio` is discarded, as in the
source, and the function returns `true`. -/
def resetRegisterDefaults (fuel : Nat) (self : MAX7360) : Option (Bool × MAX7360) :=
  match drainFifo fuel self with
  | none => none
  | some self =>
    let self := (self.writeRegister REG_CONFIG 0b00001010).2
    let self := (self.writeRegister REG_DEBOUNCE 0xff).2
    let self := (self.writeRegister REG_KEY_SWITCH_INTERRUPT 0x00).2
    let self := (self.writeRegister REG_GPO_CONTROL 0b11111110).2
    let self := (self.writeRegister REG_AUTO_REPEAT 0x00).2
    let self := (self.writeRegister REG_AUTO_SLEEP 0b00000111).2
    let self := self.setConfigResetGpio.2
    some (true, self)

/-- The member function `MAX7360Key MAX7360::readKeyFIFO()`. -/
def readKeyFIFO (self : MAX7360) : MAX7360Key × MAX7360 :=
  let (value, self') := self.readRegister REG_KEYS_FIFO
  (MAX7360Key.construct self.keyMapping value, self')

/-- The member function `uint8_t MAX7360::getDebounceTimeMs()`; the sum is converted to
`uint8_t` on return. -/
def getDebounceTimeMs (self : MAX7360) : Nat × MAX7360 :=
  let (value, self) := self.readRegister REG_DEBOUNCE
  (((value &&& REG_DEBOUNCE_MASK) + REG_DEBOUNCE_MS_OFFSET) % 256, self)

/-- The member function `bool MAX7360::setDebounceTimeMs(uint8_t value)`. -/
def setDebounceTimeMs (self : MAX7360) (value : Nat) : Bool × MAX7360 :=
  let value :=
    if value < REG_DEBOUNCE_MS_OFFSET then
      0
    else
      (value - REG_DEBOUNCE_MS_OFFSET) % 256
  let value := if value > REG_DEBOUNCE_MASK then REG_DEBOUNCE_MASK else value
  self.setRegisterMask REG_DEBOUNCE (complement8 REG_DEBOUNCE_MASK) value

/-- The member function `uint8_t MAX7360::getGpoEnable()`. -/
def getGpoEnable (self : MAX7360) : Nat × MAX7360 :=
  let (value, self) := self.readRegister REG_DEBOUNCE
  (value &&& REG_GPO_ENABLE_MASK, self)

/-- The member function `bool MAX7360::setGpoEnable(uint8_t value)`. -/
def setGpoEnable (self : MAX7360) (value : Nat) : Bool × MAX7360 :=
  let value := (value &&& REG_GPO_ENABLE_MASK) % 256
  self.setRegisterMask REG_DEBOUNCE (complement8 REG_GPO_ENABLE_MASK) value

end MAX7360

/-- The seven values the header enumerates for the GPO-enable field. -/
def gpoEnableValues : List Nat :=
  [REG_GPO_DISABLED, REG_GPO_ENABLE_7, REG_GPO_ENABLE_76, REG_GPO_ENABLE_765,
    REG_GPO_ENABLE_7654, REG_GPO_ENABLE_76543, REG_GPO_ENABLE_765432]

/-- A register file whose FIFO register `0x00` reads as empty, whose other registers hold
`0x5A`, and whose transmissions all succeed. -/
def emptyFifoWire : TwoWire :=
  { regs := fun r => if r = 0 then 0x3F else 0x5A, stat := fun _ => 0, count := 0, txAddr := 0,
    txBuf := [], pointer := 0, rxBuf := [] }

/-- A driver at bus address `0x38` on `emptyFifoWire`. -/
def emptyFifoDriver : MAX7360 := MAX7360.construct 0x38 emptyFifoWire

/-- A register file whose FIFO register `0x00` reads as empty and whose other registers hold
`0x5A`, on which the first transmission (the one that reads the FIFO) succeeds and every
later one fails with status 4. -/
def failingWire : TwoWire :=
  { regs := fun r => if r = 0 then 0x3F else 0x5A, stat := fun n => if n = 0 then 0 else 4,
    count := 0, txAddr := 0, txBuf := [], pointer := 0, rxBuf := [] }

/-- A driver at bus address `0x38` on `failingWire`. -/
def failingDriver : MAX7360 := MAX7360.construct 0x38 failingWire

/-- A two-slot table that holds the symbol `A` in both slots. -/
def duplicateTable : MAX7360KeyMappingTable :=
  { table := ['A'.toNat, 'A'.toNat], tableSize := 2 }

/-! ## MAX7360: fade time, blink settings and the configuration toggles -/

def REG_GPIO_CONFIG_FADE_TIME_DISABLED : Nat := 0x00
def REG_GPIO_CONFIG_FADE_TIME_256_MS : Nat := 0x01
def REG_GPIO_CONFIG_FADE_TIME_512_MS : Nat := 0x02
def REG_GPIO_CONFIG_FADE_TIME_1024_MS : Nat := 0x03
def REG_GPIO_CONFIG_FADE_TIME_2048_MS : Nat := 0x04
def REG_GPIO_CONFIG_FADE_TIME_4096_MS : Nat := 0x05

def REG_PORT_BLINK_PERIOD_OFF : Nat := 0
def REG_PORT_BLINK_PERIOD_256 : Nat := 1 <<< 2
def REG_PORT_BLINK_PERIOD_512 : Nat := 2 <<< 2
def REG_PORT_BLINK_PERIOD_1024 : Nat := 3 <<< 2
def REG_PORT_BLINK_PERIOD_2048 : Nat := 4 <<< 2
def REG_PORT_BLINK_PERIOD_4096 : Nat := 5 <<< 2

def REG_PORT_BLINK_ON_50_PCT : Nat := 0
def REG_PORT_BLINK_ON_25_PCT : Nat := 1
def REG_PORT_BLINK_ON_12_5_PCT : Nat := 2
def REG_PORT_BLINK_ON_6_25_PCT : Nat := 3

namespace MAX7360

/-- The member function `bool MAX7360::setConfigurationClearINTKonRead(bool value)`. -/
def setConfigurationClearINTKonRead (self : MAX7360) (value : Bool) : Bool × MAX7360 :=
  self.setRegisterBitmask REG_CONFIG REG_CONFIG_INTERRUPT_MASK value

/-- The member function `bool MAX7360::setConfigurationEnableKeyRelease(bool value)`. -/
def setConfigurationEnableKeyRelease (self : MAX7360) (value : Bool) : Bool × MAX7360 :=
  self.setRegisterBitmask REG_CONFIG REG_CONFIG_KEY_RELEASE_MASK value

/-- The member function `bool MAX7360::setConfigurationAutoWakeUp(bool value)`. -/
def setConfigurationAutoWakeUp (self : MAX7360) (value : Bool) : Bool × MAX7360 :=
  self.setRegisterBitmask REG_CONFIG REG_CONFIG_AUTO_WAKEUP_MASK value

/-- The member function `bool MAX7360::setConfigurationDisableI2CTimeouts(bool value)`. -/
def setConfigurationDisableI2CTimeouts (self : MAX7360) (value : Bool) : Bool × MAX7360 :=
  self.setRegisterBitmask REG_CONFIG REG_CONFIG_TIMEOUT_DISABLE_MASK value

/-- The member function `bool MAX7360::setBlinkPeriod(uint8_t port, uint8_t period)`; the sum
`REG_PORT_CONFIG + port` is converted to `uint8_t` when passed on. -/
def setBlinkPeriod (self : MAX7360) (port period : Nat) : Bool × MAX7360 :=
  self.setRegisterMask ((REG_PORT_CONFIG + port) % 256)
    (complement8 REG_PORT_BLINK_PERIOD_MASK) period

/-- The member function `bool MAX7360::setBlinkOnTimePercent(uint8_t port, uint8_t value)`. -/
def setBlinkOnTimePercent (self : MAX7360) (port value : Nat) : Bool × MAX7360 :=
  self.setRegisterMask ((REG_PORT_CONFIG + port) % 256)
    (complement8 REG_PORT_BLINK_ON_TIME_MASK) value

/-- The member function `bool MAX7360::setConfigFadeTime(uint8_t value)`. -/
def setConfigFadeTime (self : MAX7360) (value : Nat) : Bool × MAX7360 :=
  self.setRegisterMask REG_GPIO_CONFIG (complement8 REG_GPIO_CONFIG_FADE_TIME_MASK) value

end MAX7360

/-- The six values the header enumerates for the fade time. -/
def fadeTimeValues : List Nat :=
  [REG_GPIO_CONFIG_FADE_TIME_DISABLED, REG_GPIO_CONFIG_FADE_TIME_256_MS,
    REG_GPIO_CONFIG_FADE_TIME_512_MS, REG_GPIO_CONFIG_FADE_TIME_1024_MS,
    REG_GPIO_CONFIG_FADE_TIME_2048_MS, REG_GPIO_CONFIG_FADE_TIME_4096_MS]

/-- The six values the header enumerates for the blink period. -/
def blinkPeriodValues : List Nat :=
  [REG_PORT_BLINK_PERIOD_OFF, REG_PORT_BLINK_PERIOD_256, REG_PORT_BLINK_PERIOD_512,
    REG_PORT_BLINK_PERIOD_1024, REG_PORT_BLINK_PERIOD_2048, REG_PORT_BLINK_PERIOD_4096]

/-- The four values the header enumerates for the blink on time. -/
def blinkOnTimeValues : List Nat :=
  [REG_PORT_BLINK_ON_50_PCT, REG_PORT_BLINK_ON_25_PCT, REG_PORT_BLINK_ON_12_5_PCT,
    REG_PORT_BLINK_ON_6_25_PCT]

/-! ## Facts about bytes -/

set_option maxRecDepth 100000 in
theorem byte_decode_bits : ∀ b < 256,
    (decide (b &&& FIFO_EMPTY_MASK = 0) = !b.testBit 7) ∧
    (decide (b &&& FIFO_RELEASED_MASK ≠ 0) = b.testBit 6) ∧
    b &&& FIFO_KEY_MASK = b % 64 := by
  decide

set_option maxRecDepth 100000 in
theorem byte_low_bits_special : ∀ b < 256, 62 ≤ b &&& FIFO_KEY_MASK → b ∈ specialBytes := by
  decide

theorem complement8_eq (m : Nat) (hm : m < 256) : complement8 m = 255 - m := by
  unfold complement8
  omega

theorem testBit_complement8 (m i : Nat) (hm : m < 256) :
    (complement8 m).testBit i = (decide (i < 8) && !m.testBit i) := by
  have h : 255 - m = 2 ^ 8 - (m + 1) := by omega
  rw [complement8_eq m hm, h, Nat.testBit_two_pow_sub_succ (show m < 2 ^ 8 by omega)]

theorem byte_testBit_high (R i : Nat) (hR : R < 256) (hi : 8 ≤ i) : R.testBit i = false := by
  apply Nat.testBit_eq_false_of_lt
  calc R < 2 ^ 8 := by omega
    _ ≤ 2 ^ i := Nat.pow_le_pow_right (by decide) hi

/-! ## The key decoder -/

/-- On a byte outside the eight `case` labels `fromRawValue` runs its `default` branch. -/
theorem fromRawValue_default (s : MAX7360Key) (b : Nat) (hs : b ∉ specialBytes) :
    s.fromRawValue b =
      { s with
        rawValue := b
        more := decide ((b &&& FIFO_EMPTY_MASK) = 0)
        released := decide ((b &&& FIFO_RELEASED_MASK) ≠ 0)
        rawKey := b &&& FIFO_KEY_MASK } := by
  simp only [specialBytes, List.mem_cons, List.mem_singleton, List.not_mem_nil, or_false,
    not_or] at hs
  obtain ⟨h1, h2, h3, h4, h5, h6, h7, h8⟩ := hs
  simp [MAX7360Key.fromRawValue, FIFO_EMPTY, FIFO_OVERFLOW, FIFO_KEY63_PRESSED,
    FIFO_KEY63_RELEASED, FIFO_KEY62_PRESSED, FIFO_KEY62_RELEASED, FIFO_KEY_REPEAT_MORE,
    FIFO_KEY_REPEAT_DONE, h1, h2, h3, h4, h5, h6, h7, h8]

/-- C1: for a byte `b` that is none of the eight special values, the event decoded from `b`
(whatever the object held before) has `hasMore()` true exactly when bit 7 of `b` is clear,
`isReleased()` true exactly when bit 6 is set, and `getRawKey()` the low six bits of `b`;
`0x85` is pressed key 5 with more = false and `0x45` released key 5 with more = true. -/
theorem fromRawValue_general_decode (s : MAX7360Key) (b : Nat) (hb : b < 256)
    (hs : b ∉ specialBytes) :
    ((s.fromRawValue b).hasMore = true ↔ b.testBit 7 = false) ∧
    ((s.fromRawValue b).isReleased = true ↔ b.testBit 6 = true) ∧
    (s.fromRawValue b).getRawKey = b % 64 ∧
    ((s.fromRawValue 0x85).getRawKey = 5 ∧ (s.fromRawValue 0x85).isReleased = false ∧
      (s.fromRawValue 0x85).hasMore = false) ∧
    ((s.fromRawValue 0x45).getRawKey = 5 ∧ (s.fromRawValue 0x45).isReleased = true ∧
      (s.fromRawValue 0x45).hasMore = true) := by
  obtain ⟨h7, h6, hk⟩ := byte_decode_bits b hb
  rw [fromRawValue_default s b hs]
  refine ⟨?_, ?_, ?_, ?_, ?_⟩
  · simp only [MAX7360Key.hasMore, h7]
    cases b.testBit 7 <;> simp
  · simp only [MAX7360Key.isReleased, h6]
  · simp only [MAX7360Key.getRawKey, hk]
  · rw [fromRawValue_default s 0x85 (by decide)]
    exact ⟨rfl, rfl, rfl⟩
  · rw [fromRawValue_default s 0x45 (by decide)]
    exact ⟨rfl, rfl, rfl⟩

/-- Witness for C1 at the byte `0x85` on a fresh key object. -/
theorem fromRawValue_general_decode_witness :
    (0x85 < 256 ∧ 0x85 ∉ specialBytes) ∧
    (({} : MAX7360Key).fromRawValue 0x85).getRawKey = 0x85 % 64 :=
  ⟨⟨by decide, by decide⟩,
    (fromRawValue_general_decode {} 0x85 (by decide) (by decide)).2.2.1⟩

/-- The decoded object always records the byte it was given. -/
theorem fromRawValue_rawValue (s : MAX7360Key) (b : Nat) : (s.fromRawValue b).rawValue = b := by
  unfold MAX7360Key.fromRawValue
  split_ifs <;> rfl

/-- C2: the four marker bytes decode to the non-key events: `0x3F` is Empty, `0x7F` is Overflow,
`0x3E` is RepeatMore (a key repeat with more = true) and `0x7E` is RepeatDone (a key repeat
with more = false); each of them has `getRawKey() = FIFO_KEY_NONE = 0xFF`, `hasKey()` false
and `isReleased()` false, whatever the object held before; and `isEmpty`, `isOverflow` or
`isKeyRepeat` holds of the event decoded from a byte exactly when the byte is one of the
four. -/
theorem fromRawValue_marker_bytes (s : MAX7360Key) :
    ((s.fromRawValue 0x3F).isEmpty = true ∧ (s.fromRawValue 0x3F).isOverflow = false ∧
      (s.fromRawValue 0x3F).isKeyRepeat = false) ∧
    ((s.fromRawValue 0x7F).isOverflow = true ∧ (s.fromRawValue 0x7F).isEmpty = false ∧
      (s.fromRawValue 0x7F).isKeyRepeat = false) ∧
    ((s.fromRawValue 0x3E).isKeyRepeat = true ∧ (s.fromRawValue 0x3E).hasMore = true ∧
      (s.fromRawValue 0x3E).isEmpty = false ∧ (s.fromRawValue 0x3E).isOverflow = false) ∧
    ((s.fromRawValue 0x7E).isKeyRepeat = true ∧ (s.fromRawValue 0x7E).hasMore = false ∧
      (s.fromRawValue 0x7E).isEmpty = false ∧ (s.fromRawValue 0x7E).isOverflow = false) ∧
    (∀ b ∈ markerBytes,
      (s.fromRawValue b).getRawKey = FIFO_KEY_NONE ∧ (s.fromRawValue b).getRawKey = 0xFF ∧
      (s.fromRawValue b).hasKey = false ∧ (s.fromRawValue b).isReleased = false) ∧
    (∀ b : Nat,
      ((s.fromRawValue b).isEmpty || (s.fromRawValue b).isOverflow ||
        (s.fromRawValue b).isKeyRepeat) = decide (b ∈ markerBytes)) := by
  refine ⟨⟨rfl, rfl, rfl⟩, ⟨rfl, rfl, rfl⟩, ⟨rfl, rfl, rfl, rfl⟩, ⟨rfl, rfl, rfl, rfl⟩, ?_, ?_⟩
  · intro b hb
    simp only [markerBytes, List.mem_cons, List.mem_singleton, List.not_mem_nil, or_false] at hb
    rcases hb with rfl | rfl | rfl | rfl <;> exact ⟨rfl, rfl, rfl, rfl⟩
  · intro b
    simp only [MAX7360Key.isEmpty, MAX7360Key.isOverflow, MAX7360Key.isKeyRepeat,
      fromRawValue_rawValue, markerBytes, FIFO_EMPTY, FIFO_OVERFLOW, FIFO_KEY_REPEAT_MORE,
      FIFO_KEY_REPEAT_DONE]
    by_cases h1 : b = 0x3F <;> by_cases h2 : b = 0x7F <;> by_cases h3 : b = 0x3E <;>
      by_cases h4 : b = 0x7E <;> simp [h1, h2, h3, h4]

/-- C3: a key event constructed from a raw byte decodes `0xBF` to a press of key 63, `0xFF` to a
release of key 63 and `0xBE` to a press of key 62, with any mapping attached. -/
theorem construct_key63_key62 (keyMapping : Option MAX7360KeyMappingTable) :
    ((MAX7360Key.construct keyMapping 0xBF).getRawKey = 63 ∧
      (MAX7360Key.construct keyMapping 0xBF).isReleased = false) ∧
    ((MAX7360Key.construct keyMapping 0xFF).getRawKey = 63 ∧
      (MAX7360Key.construct keyMapping 0xFF).isReleased = true) ∧
    ((MAX7360Key.construct keyMapping 0xBE).getRawKey = 62 ∧
      (MAX7360Key.construct keyMapping 0xBE).isReleased = false) :=
  ⟨⟨rfl, rfl⟩, ⟨rfl, rfl⟩, ⟨rfl, rfl⟩⟩

/-- C4 (what the code does): the byte `0xFE`, `FIFO_KEY62_RELEASED`, decodes to a released event
whose key index is 63 and not 62, both on a constructed object and on an object in any prior
state. -/
theorem fromRawValue_key62_released_gives_63 (s : MAX7360Key)
    (keyMapping : Option MAX7360KeyMappingTable) :
    (MAX7360Key.construct keyMapping FIFO_KEY62_RELEASED).isReleased = true ∧
    (MAX7360Key.construct keyMapping FIFO_KEY62_RELEASED).getRawKey = 63 ∧
    (MAX7360Key.construct keyMapping 0xFE).getRawKey ≠ 62 ∧
    (s.fromRawValue 0xFE).getRawKey = 63 ∧
    (s.fromRawValue 0xFE).isReleased = true :=
  ⟨rfl, rfl, fun h => absurd (show (63 : Nat) = 62 from h) (by decide), rfl, rfl⟩

/-- The members `rawValue`, `rawKey` and `more` after `fromRawValue b` depend on `b` alone, and
so does `released` unless `b` is `0xBF` or `0xBE`, the two cases that do not assign it. -/
theorem fromRawValue_state_independent (s t : MAX7360Key) (b : Nat) :
    (s.fromRawValue b).getRawValue = (t.fromRawValue b).getRawValue ∧
    (s.fromRawValue b).getRawKey = (t.fromRawValue b).getRawKey ∧
    (s.fromRawValue b).hasMore = (t.fromRawValue b).hasMore ∧
    (b ≠ 0xBF → b ≠ 0xBE → (s.fromRawValue b).isReleased = (t.fromRawValue b).isReleased) ∧
    (s.fromRawValue 0xBF).isReleased = s.released ∧
    (s.fromRawValue 0xBE).isReleased = s.released := by
  by_cases hs : b ∈ specialBytes
  · simp only [specialBytes, List.mem_cons, List.mem_singleton, List.not_mem_nil,
      or_false] at hs
    rcases hs with rfl | rfl | rfl | rfl | rfl | rfl | rfl | rfl
    · exact ⟨rfl, rfl, rfl, fun _ _ => rfl, rfl, rfl⟩
    · exact ⟨rfl, rfl, rfl, fun _ _ => rfl, rfl, rfl⟩
    · exact ⟨rfl, rfl, rfl, fun h _ => absurd rfl h, rfl, rfl⟩
    · exact ⟨rfl, rfl, rfl, fun _ _ => rfl, rfl, rfl⟩
    · exact ⟨rfl, rfl, rfl, fun _ _ => rfl, rfl, rfl⟩
    · exact ⟨rfl, rfl, rfl, fun _ _ => rfl, rfl, rfl⟩
    · exact ⟨rfl, rfl, rfl, fun _ h => absurd rfl h, rfl, rfl⟩
    · exact ⟨rfl, rfl, rfl, fun _ _ => rfl, rfl, rfl⟩
  · rw [fromRawValue_default s b hs, fromRawValue_default t b hs]
    exact ⟨rfl, rfl, rfl, fun _ _ => rfl, rfl, rfl⟩

/-- C5 (what the code does): on an object that decoded a release before, `fromRawValue(0xBF)` and
`fromRawValue(0xBE)` leave `isReleased()` true, while on a fresh object they give false: the
decoded event depends on the object's prior state. -/
theorem fromRawValue_released_depends_on_prior_state :
    releasedKey.isReleased = true ∧
    (releasedKey.fromRawValue 0xBF).isReleased = true ∧
    (({} : MAX7360Key).fromRawValue 0xBF).isReleased = false ∧
    (releasedKey.fromRawValue 0xBE).isReleased = true ∧
    (({} : MAX7360Key).fromRawValue 0xBE).isReleased = false := by
  decide

/-- C6: for a byte that is none of the eight special values the key index of the general decode
path is at most 61 (so it is none of 62, 63 and the no-key value `0xFF`, and the event has a
key), since every byte whose low six bits are 62 or 63 is one of the eight special values. -/
theorem fromRawValue_general_key_range (s : MAX7360Key) (b : Nat) (hb : b < 256)
    (hs : b ∉ specialBytes) :
    (s.fromRawValue b).getRawKey ≤ 61 ∧
    (s.fromRawValue b).getRawKey ≠ FIFO_KEY_NONE ∧
    (s.fromRawValue b).hasKey = true ∧
    (∀ c < 256, 62 ≤ c % 64 → c ∈ specialBytes) := by
  have hk : (s.fromRawValue b).getRawKey = b &&& FIFO_KEY_MASK := by
    rw [fromRawValue_default s b hs]
    rfl
  have h61 : b &&& FIFO_KEY_MASK ≤ 61 := by
    by_contra hc
    exact hs (byte_low_bits_special b hb (by omega))
  refine ⟨by omega, ?_, ?_, ?_⟩
  · simp only [FIFO_KEY_NONE]
    omega
  · simp only [MAX7360Key.hasKey, MAX7360Key.getRawKey, FIFO_KEY_NONE] at hk ⊢
    simp only [bne_iff_ne, ne_eq]
    omega
  · intro c hc h62
    apply byte_low_bits_special c hc
    rw [(byte_decode_bits c hc).2.2]
    exact h62

/-- Witness for C6 at the byte `0x7D` (a release of key 61) on a fresh key object. -/
theorem fromRawValue_general_key_range_witness :
    (0x7D < 256 ∧ 0x7D ∉ specialBytes) ∧
    (({} : MAX7360Key).fromRawValue 0x7D).getRawKey ≤ 61 :=
  ⟨⟨by decide, by decide⟩,
    (fromRawValue_general_key_range {} 0x7D (by decide) (by decide)).1⟩

/-! ## The register access layer -/

/-- What `readRegister` leaves behind: the register file and the status script are untouched,
one transmission has been made, and the stored bus address is the same. -/
theorem readRegister_frame (d : MAX7360) (reg : Nat) :
    (d.readRegister reg).2.wire.regs = d.wire.regs ∧
    (d.readRegister reg).2.wire.stat = d.wire.stat ∧
    (d.readRegister reg).2.wire.count = d.wire.count + 1 ∧
    (d.readRegister reg).2.addr = d.addr := by
  unfold MAX7360.readRegister TwoWire.endTransmission TwoWire.beginTransmission TwoWire.write
    TwoWire.requestFrom TwoWire.read
  have hr : List.range 1 = [0] := rfl
  by_cases h : d.wire.stat d.wire.count = 0 <;> simp [h, hr]

/-- The value `readRegister` returns when its transmission succeeds. -/
theorem readRegister_value (d : MAX7360) (reg : Nat) (h : d.wire.stat d.wire.count = 0) :
    (d.readRegister reg).1 = d.wire.regs (reg % 256) % 256 := by
  unfold MAX7360.readRegister TwoWire.endTransmission TwoWire.beginTransmission TwoWire.write
    TwoWire.requestFrom TwoWire.read
  have hr : List.range 1 = [0] := rfl
  simp [h, hr, toUint8]
  omega

/-- What `writeRegister` does: it reports whether its transmission succeeded, and stores the
byte in the addressed register when it did. -/
theorem writeRegister_effect (d : MAX7360) (reg value : Nat) :
    (d.writeRegister reg value).1 = decide (d.wire.stat d.wire.count = 0) ∧
    (d.writeRegister reg value).2.wire.regs =
      (if d.wire.stat d.wire.count = 0
        then Function.update d.wire.regs (reg % 256) (value % 256) else d.wire.regs) ∧
    (d.writeRegister reg value).2.wire.stat = d.wire.stat ∧
    (d.writeRegister reg value).2.wire.count = d.wire.count + 1 ∧
    (d.writeRegister reg value).2.addr = d.addr := by
  unfold MAX7360.writeRegister TwoWire.endTransmission TwoWire.beginTransmission TwoWire.write
  by_cases h : d.wire.stat d.wire.count = 0 <;> simp [h]

/-- The body of `setRegisterMask`: one `readRegister`, then one `writeRegister` of the masked
value. -/
theorem setRegisterMask_eq (d : MAX7360) (reg andValue orValue : Nat) :
    d.setRegisterMask reg andValue orValue =
      (d.readRegister reg).2.writeRegister reg
        ((((d.readRegister reg).1 &&& andValue) % 256 ||| orValue) % 256) := rfl

/-- What `setRegisterMask` does to the register file, whatever the transport reports. -/
theorem setRegisterMask_effect (d : MAX7360) (reg andValue orValue : Nat) :
    (d.setRegisterMask reg andValue orValue).1 = decide (d.wire.stat (d.wire.count + 1) = 0) ∧
    (d.setRegisterMask reg andValue orValue).2.wire.regs =
      (if d.wire.stat (d.wire.count + 1) = 0
        then Function.update d.wire.regs (reg % 256)
          ((((d.readRegister reg).1 &&& andValue) % 256 ||| orValue) % 256)
        else d.wire.regs) ∧
    (d.setRegisterMask reg andValue orValue).2.wire.stat = d.wire.stat ∧
    (d.setRegisterMask reg andValue orValue).2.wire.count = d.wire.count + 2 ∧
    (d.setRegisterMask reg andValue orValue).2.addr = d.addr := by
  obtain ⟨hr, hs, hc, ha⟩ := readRegister_frame d reg
  obtain ⟨w1, w2, w3, w4, w5⟩ := writeRegister_effect (d.readRegister reg).2 reg
    ((((d.readRegister reg).1 &&& andValue) % 256 ||| orValue) % 256)
  rw [setRegisterMask_eq]
  rw [hs, hc] at w1 w2
  rw [hr] at w2
  rw [hs] at w3
  rw [hc] at w4
  rw [ha] at w5
  refine ⟨w1, ?_, w3, w4, w5⟩
  rw [w2, Nat.mod_mod]

/-- The value `setRegisterMask` stores on a register file of bytes whose transmissions
succeed. -/
theorem setRegisterMask_ok (d : MAX7360) (reg R andValue orValue : Nat) (hreg : reg < 256)
    (hR : R < 256) (hand : andValue < 256) (hor : orValue < 256)
    (hcontent : d.wire.regs reg = R) (hok : ∀ n, d.wire.stat n = 0) :
    (d.setRegisterMask reg andValue orValue).1 = true ∧
    (d.setRegisterMask reg andValue orValue).2.wire.regs =
      Function.update d.wire.regs reg ((R &&& andValue) ||| orValue) ∧
    (∀ n, (d.setRegisterMask reg andValue orValue).2.wire.stat n = 0) := by
  obtain ⟨h1, h2, h3, _, _⟩ := setRegisterMask_effect d reg andValue orValue
  have hv : (d.readRegister reg).1 = R := by
    rw [readRegister_value d reg (hok _), Nat.mod_eq_of_lt hreg, hcontent, Nat.mod_eq_of_lt hR]
  have hA : R &&& andValue < 256 := Nat.and_lt_two_pow R (show andValue < 2 ^ 8 by omega)
  have hO : (R &&& andValue) ||| orValue < 256 :=
    Nat.or_lt_two_pow (show R &&& andValue < 2 ^ 8 by omega) (show orValue < 2 ^ 8 by omega)
  refine ⟨?_, ?_, ?_⟩
  · rw [h1, hok]
    rfl
  · rw [h2, if_pos (hok _), hv, Nat.mod_eq_of_lt hreg, Nat.mod_eq_of_lt hA,
      Nat.mod_eq_of_lt hO]
  · intro n
    rw [h3]
    exact hok n

/-- The register file after `setRegisterMask` agrees with the one before at every address
other than the byte `reg`. -/
theorem setRegisterMask_other (d : MAX7360) (reg andValue orValue r : Nat)
    (hne : r ≠ reg % 256) :
    (d.setRegisterMask reg andValue orValue).2.wire.regs r = d.wire.regs r := by
  rw [(setRegisterMask_effect d reg andValue orValue).2.1]
  split_ifs
  · exact Function.update_noteq hne _ _
  · rfl

theorem byte_and_255 (R : Nat) (hR : R < 256) : R &&& 0xff = R :=
  Nat.and_pow_two_sub_one_of_lt_two_pow (show R < 2 ^ 8 by omega)

theorem byte_or_and_complement8 (R m : Nat) (hm : m < 256) :
    (R ||| m) &&& complement8 m = R &&& complement8 m := by
  apply Nat.eq_of_testBit_eq
  intro i
  simp only [Nat.testBit_and, Nat.testBit_or, testBit_complement8 m i hm]
  cases R.testBit i <;> cases m.testBit i <;> simp

theorem byte_and_complement8_eq_iff (R m : Nat) (hR : R < 256) (hm : m < 256) :
    R &&& complement8 m = R ↔ R &&& m = 0 := by
  constructor
  · intro h
    apply Nat.eq_of_testBit_eq
    intro i
    have hi := congrArg (fun x => x.testBit i) h
    simp only [Nat.testBit_and, testBit_complement8 m i hm] at hi
    simp only [Nat.testBit_and, Nat.zero_testBit]
    revert hi
    cases R.testBit i <;> cases m.testBit i <;> simp
  · intro h
    apply Nat.eq_of_testBit_eq
    intro i
    have hi := congrArg (fun x => x.testBit i) h
    simp only [Nat.testBit_and, Nat.zero_testBit] at hi
    simp only [Nat.testBit_and, testBit_complement8 m i hm]
    by_cases h8 : i < 8
    · revert hi
      cases R.testBit i <;> cases m.testBit i <;> simp [h8]
    · simp [byte_testBit_high R i hR (by omega)]

/-- The value `setRegisterBitmask` stores on a register file of bytes whose transmissions
succeed: the bits of `bitMask` are set, or cleared. -/
theorem setRegisterBitmask_ok (d : MAX7360) (reg R bitMask : Nat) (set : Bool)
    (hreg : reg < 256) (hR : R < 256) (hmask : bitMask < 256)
    (hcontent : d.wire.regs reg = R) (hok : ∀ n, d.wire.stat n = 0) :
    (d.setRegisterBitmask reg bitMask set).1 = true ∧
    (d.setRegisterBitmask reg bitMask set).2.wire.regs =
      Function.update d.wire.regs reg
        (if set then R ||| bitMask else R &&& complement8 bitMask) ∧
    (∀ n, (d.setRegisterBitmask reg bitMask set).2.wire.stat n = 0) := by
  cases set
  · have hc : complement8 bitMask < 256 := by
      rw [complement8_eq bitMask hmask]
      omega
    have h := setRegisterMask_ok d reg R (complement8 bitMask) 0 hreg hR hc (by decide)
      hcontent hok
    simpa [MAX7360.setRegisterBitmask] using h
  · have h := setRegisterMask_ok d reg R 0xff bitMask hreg hR (by decide) hmask hcontent hok
    rw [byte_and_255 R hR] at h
    simpa [MAX7360.setRegisterBitmask] using h

/-- C7: on a register file whose writes succeed, `setRegisterMask(reg, andValue, orValue)`
returns true and leaves register `reg`, which held `R`, holding `(R & andValue) | orValue`
(which is also what `readRegister(reg)` then returns). -/
theorem setRegisterMask_applies_masks (d : MAX7360) (reg R andValue orValue : Nat)
    (hreg : reg < 256) (hR : R < 256) (hand : andValue < 256) (hor : orValue < 256)
    (hcontent : d.wire.regs reg = R) (hok : ∀ n, d.wire.stat n = 0) :
    (d.setRegisterMask reg andValue orValue).1 = true ∧
    (d.setRegisterMask reg andValue orValue).2.wire.regs reg = (R &&& andValue) ||| orValue ∧
    ((d.setRegisterMask reg andValue orValue).2.readRegister reg).1 =
      (R &&& andValue) ||| orValue := by
  obtain ⟨h1, h2, h3⟩ := setRegisterMask_ok d reg R andValue orValue hreg hR hand hor hcontent hok
  have hA : R &&& andValue < 256 := Nat.and_lt_two_pow R (show andValue < 2 ^ 8 by omega)
  have hO : (R &&& andValue) ||| orValue < 256 :=
    Nat.or_lt_two_pow (show R &&& andValue < 2 ^ 8 by omega) (show orValue < 2 ^ 8 by omega)
  have hreg2 : (d.setRegisterMask reg andValue orValue).2.wire.regs reg =
      (R &&& andValue) ||| orValue := by
    rw [h2, Function.update_same]
  refine ⟨h1, hreg2, ?_⟩
  rw [readRegister_value _ reg (h3 _), Nat.mod_eq_of_lt hreg, hreg2, Nat.mod_eq_of_lt hO]

/-- Witness for C7: register `0x02` holding `0x5A`, masks `0xE0` and `0x0B`. -/
theorem setRegisterMask_applies_masks_witness :
    sampleDriver.wire.regs 2 = 0x5A ∧ (∀ n, sampleDriver.wire.stat n = 0) ∧
    (sampleDriver.setRegisterMask 2 0xE0 0x0B).1 = true ∧
    (sampleDriver.setRegisterMask 2 0xE0 0x0B).2.wire.regs 2 = (0x5A &&& 0xE0) ||| 0x0B :=
  ⟨rfl, fun _ => rfl,
    (setRegisterMask_applies_masks sampleDriver 2 0x5A 0xE0 0x0B (by decide) (by decide)
      (by decide) (by decide) rfl (fun _ => rfl)).1,
    (setRegisterMask_applies_masks sampleDriver 2 0x5A 0xE0 0x0B (by decide) (by decide)
      (by decide) (by decide) rfl (fun _ => rfl)).2.1⟩

/-- C8: `setRegisterMask(reg, andValue, orValue)` and `setRegisterBitmask(reg, bitMask, set)`
leave the content of every register other than `reg` unchanged, whatever the masks are and
whether or not the transport reports success. -/
theorem setRegisterMask_frame (d : MAX7360) (reg andValue orValue bitMask r : Nat)
    (set : Bool) (hreg : reg < 256) (hne : r ≠ reg) :
    (d.setRegisterMask reg andValue orValue).2.wire.regs r = d.wire.regs r ∧
    (d.setRegisterBitmask reg bitMask set).2.wire.regs r = d.wire.regs r := by
  have hne2 : r ≠ reg % 256 := by
    rw [Nat.mod_eq_of_lt hreg]
    exact hne
  refine ⟨setRegisterMask_other d reg andValue orValue r hne2, ?_⟩
  cases set
  · exact setRegisterMask_other d reg (complement8 bitMask) 0 r hne2
  · exact setRegisterMask_other d reg 0xff bitMask r hne2

/-- Witness for C8: writing register `0x02` leaves register `0x01` as it was. -/
theorem setRegisterMask_frame_witness :
    ((2 : Nat) < 256 ∧ (1 : Nat) ≠ 2) ∧
    (sampleDriver.setRegisterMask 2 0xE0 0x0B).2.wire.regs 1 = sampleDriver.wire.regs 1 ∧
    (sampleDriver.setRegisterBitmask 2 0x0F true).2.wire.regs 1 = sampleDriver.wire.regs 1 :=
  ⟨⟨by decide, by decide⟩,
    setRegisterMask_frame sampleDriver 2 0xE0 0x0B 0x0F 1 true (by decide) (by decide)⟩

/-- C9 (as stated, refuted): on `sampleDriver`, whose register `0x02` holds `0x5A`,
`setRegisterBitmask(2, 0x0F, true)` followed by `setRegisterBitmask(2, 0x0F, false)` leaves
the register holding `0x50`, not its original value. -/
theorem setRegisterBitmask_set_clear_counterexample :
    sampleDriver.wire.regs 2 = 0x5A ∧
    ((sampleDriver.setRegisterBitmask 2 0x0F true).2.setRegisterBitmask 2 0x0F false).1 = true ∧
    ((sampleDriver.setRegisterBitmask 2 0x0F true).2.setRegisterBitmask 2 0x0F
      false).2.wire.regs 2 = 0x50 ∧
    ((sampleDriver.setRegisterBitmask 2 0x0F true).2.setRegisterBitmask 2 0x0F
      false).2.wire.regs 2 ≠ sampleDriver.wire.regs 2 := by
  decide

/-- C9 (amended): on a register file whose writes succeed, `setRegisterBitmask(reg, mask, true)`
followed by `setRegisterBitmask(reg, mask, false)` leaves register `reg`, which held `R`,
holding `R & ~mask`; that is the original value `R` exactly when no bit of `mask` was set
in `R`. -/
theorem setRegisterBitmask_set_then_clear (d : MAX7360) (reg R mask : Nat)
    (hreg : reg < 256) (hR : R < 256) (hmask : mask < 256)
    (hcontent : d.wire.regs reg = R) (hok : ∀ n, d.wire.stat n = 0) :
    ((d.setRegisterBitmask reg mask true).2.setRegisterBitmask reg mask false).2.wire.regs reg
      = R &&& complement8 mask ∧
    (((d.setRegisterBitmask reg mask true).2.setRegisterBitmask reg mask false).2.wire.regs reg
      = R ↔ R &&& mask = 0) := by
  obtain ⟨_, h2, h3⟩ := setRegisterBitmask_ok d reg R mask true hreg hR hmask hcontent hok
  have hR1 : R ||| mask < 256 :=
    Nat.or_lt_two_pow (show R < 2 ^ 8 by omega) (show mask < 2 ^ 8 by omega)
  have hc1 : (d.setRegisterBitmask reg mask true).2.wire.regs reg = R ||| mask := by
    rw [h2, Function.update_same]
    rfl
  obtain ⟨_, k2, _⟩ := setRegisterBitmask_ok (d.setRegisterBitmask reg mask true).2 reg
    (R ||| mask) mask false hreg hR1 hmask hc1 h3
  have hfinal : ((d.setRegisterBitmask reg mask true).2.setRegisterBitmask reg mask
      false).2.wire.regs reg = R &&& complement8 mask := by
    rw [k2, Function.update_same]
    exact byte_or_and_complement8 R mask hmask
  refine ⟨hfinal, ?_⟩
  rw [hfinal]
  exact byte_and_complement8_eq_iff R mask hR hmask

/-- Witness for C9 (amended): register `0x02` holding `0x5A` and the mask `0x05`, none of whose
bits is set in `0x5A`. -/
theorem setRegisterBitmask_set_then_clear_witness :
    sampleDriver.wire.regs 2 = 0x5A ∧ 0x5A &&& 0x05 = 0 ∧
    ((sampleDriver.setRegisterBitmask 2 0x05 true).2.setRegisterBitmask 2 0x05
      false).2.wire.regs 2 = 0x5A :=
  ⟨rfl, by decide,
    (setRegisterBitmask_set_then_clear sampleDriver 2 0x5A 0x05 (by decide) (by decide)
      (by decide) rfl (fun _ => rfl)).2.mpr (by decide)⟩

/-- C10: on a register file whose writes succeed, `setRegisterBitmask(reg, bitMask, true)`
leaves register `reg`, which held `R`, holding `R | bitMask`, and
`setRegisterBitmask(reg, bitMask, false)` leaves it holding `R & ~bitMask`, where `~bitMask`
is the 8-bit complement `255 - bitMask`; in both cases every bit outside `bitMask` keeps the
value it has in `R`. -/
theorem setRegisterBitmask_sets_and_clears (d : MAX7360) (reg R bitMask : Nat)
    (hreg : reg < 256) (hR : R < 256) (hmask : bitMask < 256)
    (hcontent : d.wire.regs reg = R) (hok : ∀ n, d.wire.stat n = 0) :
    (d.setRegisterBitmask reg bitMask true).2.wire.regs reg = R ||| bitMask ∧
    (d.setRegisterBitmask reg bitMask false).2.wire.regs reg = R &&& complement8 bitMask ∧
    complement8 bitMask = 255 - bitMask ∧
    (∀ i, bitMask.testBit i = false →
      ((d.setRegisterBitmask reg bitMask true).2.wire.regs reg).testBit i = R.testBit i ∧
      ((d.setRegisterBitmask reg bitMask false).2.wire.regs reg).testBit i = R.testBit i) := by
  have hset : (d.setRegisterBitmask reg bitMask true).2.wire.regs reg = R ||| bitMask := by
    rw [(setRegisterBitmask_ok d reg R bitMask true hreg hR hmask hcontent hok).2.1,
      Function.update_same]
    rfl
  have hclear : (d.setRegisterBitmask reg bitMask false).2.wire.regs reg =
      R &&& complement8 bitMask := by
    rw [(setRegisterBitmask_ok d reg R bitMask false hreg hR hmask hcontent hok).2.1,
      Function.update_same]
    rfl
  refine ⟨hset, hclear, complement8_eq bitMask hmask, ?_⟩
  intro i hi
  rw [hset, hclear]
  constructor
  · simp [Nat.testBit_or, hi]
  · simp only [Nat.testBit_and, testBit_complement8 bitMask i hmask, hi]
    by_cases h8 : i < 8
    · simp [h8]
    · simp [byte_testBit_high R i hR (by omega)]

/-- Witness for C10: register `0x02` holding `0x5A` and the mask `0x0F`. -/
theorem setRegisterBitmask_sets_and_clears_witness :
    sampleDriver.wire.regs 2 = 0x5A ∧
    (sampleDriver.setRegisterBitmask 2 0x0F true).2.wire.regs 2 = 0x5A ||| 0x0F ∧
    (sampleDriver.setRegisterBitmask 2 0x0F false).2.wire.regs 2 = 0x5A &&& complement8 0x0F :=
  ⟨rfl,
    (setRegisterBitmask_sets_and_clears sampleDriver 2 0x5A 0x0F (by decide) (by decide)
      (by decide) rfl (fun _ => rfl)).1,
    (setRegisterBitmask_sets_and_clears sampleDriver 2 0x5A 0x0F (by decide) (by decide)
      (by decide) rfl (fun _ => rfl)).2.1⟩

/-! ## Bit fields of a register -/

theorem and_or_right (x y z : Nat) : (x ||| y) &&& z = (x &&& z) ||| (y &&& z) := by
  rw [Nat.and_comm, Nat.and_or_distrib_left, Nat.and_comm z x, Nat.and_comm z y]

/-- Reading back a field that was just written: when the masks `hi` and `lo` are disjoint and
`e` lies inside `lo`, the `lo` bits of `(R & hi) | e` are `e`. -/
theorem field_get_written (R e hi lo : Nat) (hd : hi &&& lo = 0) (he : e &&& lo = e) :
    ((R &&& hi) ||| e) &&& lo = e := by
  rw [and_or_right, Nat.and_assoc, hd, Nat.and_zero, Nat.zero_or, he]

/-- The bits kept by the AND mask are unchanged when `e` lies outside it. -/
theorem field_keep_other (R e hi : Nat) (he : e &&& hi = 0) :
    ((R &&& hi) ||| e) &&& hi = R &&& hi := by
  rw [and_or_right, Nat.and_assoc, Nat.and_self, he, Nat.or_zero]

set_option maxRecDepth 100000 in
theorem byte_fields_5_3 : ∀ x < 256, x &&& 0x1f = x % 32 ∧ x &&& 0xe0 = x / 32 * 32 := by
  decide

theorem low5_masks : ∀ e < 32, e &&& 0x1f = e ∧ e &&& 0xe0 = 0 := by
  decide

/-! ## Debounce time -/

/-- The body of `setDebounceTimeMs` on a byte: one `setRegisterMask` of register `0x02` with the
AND mask `0xE0` and the clamped, offset-encoded time. -/
theorem setDebounceTimeMs_eq (d : MAX7360) (v : Nat) (hv : v < 256) :
    d.setDebounceTimeMs v = d.setRegisterMask REG_DEBOUNCE 0xe0 (max 9 (min v 40) - 9) := by
  have hc : complement8 REG_DEBOUNCE_MASK = 0xe0 := by decide
  unfold MAX7360.setDebounceTimeMs
  rw [hc]
  simp only [REG_DEBOUNCE_MS_OFFSET, REG_DEBOUNCE_MASK]
  split_ifs <;> congr 1 <;> omega

/-- The value `getDebounceTimeMs` returns when its transmission succeeds. -/
theorem getDebounceTimeMs_value (d : MAX7360) (h : d.wire.stat d.wire.count = 0) :
    d.getDebounceTimeMs.1 = (d.wire.regs REG_DEBOUNCE % 256 &&& 0x1f) + 9 := by
  have hle : d.wire.regs REG_DEBOUNCE % 256 &&& 0x1f ≤ 0x1f := Nat.and_le_right
  show (((d.readRegister REG_DEBOUNCE).1 &&& REG_DEBOUNCE_MASK) + REG_DEBOUNCE_MS_OFFSET) % 256
    = _
  have h2 : REG_DEBOUNCE % 256 = REG_DEBOUNCE := rfl
  rw [readRegister_value d REG_DEBOUNCE h, h2]
  simp only [REG_DEBOUNCE_MASK, REG_DEBOUNCE_MS_OFFSET] at hle ⊢
  omega

/-- The register file after `setDebounceTimeMs` on a register file of bytes whose transmissions
succeed. -/
theorem setDebounceTimeMs_ok (d : MAX7360) (v R : Nat) (hv : v < 256) (hR : R < 256)
    (hcontent : d.wire.regs REG_DEBOUNCE = R) (hok : ∀ n, d.wire.stat n = 0) :
    (d.setDebounceTimeMs v).1 = true ∧
    (d.setDebounceTimeMs v).2.wire.regs REG_DEBOUNCE =
      (R &&& 0xe0) ||| (max 9 (min v 40) - 9) ∧
    (d.setDebounceTimeMs v).2.wire.regs REG_DEBOUNCE < 256 ∧
    (∀ n, (d.setDebounceTimeMs v).2.wire.stat n = 0) := by
  have he : max 9 (min v 40) - 9 < 256 := by omega
  obtain ⟨h1, h2, h3⟩ := setRegisterMask_ok d REG_DEBOUNCE R 0xe0 (max 9 (min v 40) - 9)
    (by decide) hR (by decide) he hcontent hok
  rw [setDebounceTimeMs_eq d v hv]
  have hval : (d.setRegisterMask REG_DEBOUNCE 0xe0 (max 9 (min v 40) - 9)).2.wire.regs
      REG_DEBOUNCE = (R &&& 0xe0) ||| (max 9 (min v 40) - 9) := by
    rw [h2, Function.update_same]
  refine ⟨h1, hval, ?_, h3⟩
  rw [hval]
  exact Nat.or_lt_two_pow (Nat.and_lt_two_pow R (show 0xe0 < 2 ^ 8 by decide))
    (show max 9 (min v 40) - 9 < 2 ^ 8 by omega)

/-- C11: on a register file whose writes succeed, for every byte `v` and every prior content of
register `0x02`, `getDebounceTimeMs()` called after `setDebounceTimeMs(v)` returns `v` when
`9 <= v <= 40`, 9 when `v < 9` and 40 when `v > 40`. -/
theorem debounce_round_trip (d : MAX7360) (v R : Nat) (hv : v < 256) (hR : R < 256)
    (hcontent : d.wire.regs REG_DEBOUNCE = R) (hok : ∀ n, d.wire.stat n = 0) :
    (9 ≤ v → v ≤ 40 → (d.setDebounceTimeMs v).2.getDebounceTimeMs.1 = v) ∧
    (v < 9 → (d.setDebounceTimeMs v).2.getDebounceTimeMs.1 = 9) ∧
    (40 < v → (d.setDebounceTimeMs v).2.getDebounceTimeMs.1 = 40) := by
  obtain ⟨_, h2, h3, h4⟩ := setDebounceTimeMs_ok d v R hv hR hcontent hok
  have hget : (d.setDebounceTimeMs v).2.getDebounceTimeMs.1 = max 9 (min v 40) := by
    rw [getDebounceTimeMs_value _ (h4 _), Nat.mod_eq_of_lt h3, h2,
      field_get_written R _ 0xe0 0x1f (by decide) (low5_masks _ (by omega)).1]
    omega
  rw [hget]
  refine ⟨?_, ?_, ?_⟩ <;> intros <;> omega

/-- Witness for C11: `setDebounceTimeMs(20)` on register `0x02` holding `0x5A`. -/
theorem debounce_round_trip_witness :
    sampleDriver.wire.regs REG_DEBOUNCE = 0x5A ∧
    (sampleDriver.setDebounceTimeMs 20).2.getDebounceTimeMs.1 = 20 :=
  ⟨rfl, (debounce_round_trip sampleDriver 20 0x5A (by decide) (by decide) rfl
    (fun _ => rfl)).1 (by decide) (by decide)⟩

/-- C12: on a register file whose writes succeed, for every byte `v` and every prior content `R`
of register `0x02`, `setDebounceTimeMs(v)` leaves the register with bits 4:0 equal to
`clamp(v, 9, 40) - 9` and bits 7:5 (the GPO-enable field) equal to bits 7:5 of `R`; the
inputs 5, 100 and 20 encode to 0, 31 and 11. -/
theorem setDebounceTimeMs_fields (d : MAX7360) (v R : Nat) (hv : v < 256) (hR : R < 256)
    (hcontent : d.wire.regs REG_DEBOUNCE = R) (hok : ∀ n, d.wire.stat n = 0) :
    (d.setDebounceTimeMs v).2.wire.regs REG_DEBOUNCE % 32 = max 9 (min v 40) - 9 ∧
    (d.setDebounceTimeMs v).2.wire.regs REG_DEBOUNCE / 32 = R / 32 ∧
    (d.setDebounceTimeMs v).2.wire.regs REG_DEBOUNCE &&& REG_GPO_ENABLE_MASK =
      R &&& REG_GPO_ENABLE_MASK ∧
    (d.setDebounceTimeMs 5).2.wire.regs REG_DEBOUNCE % 32 = 0 ∧
    (d.setDebounceTimeMs 100).2.wire.regs REG_DEBOUNCE % 32 = 31 ∧
    (d.setDebounceTimeMs 20).2.wire.regs REG_DEBOUNCE % 32 = 11 := by
  have key : ∀ u, u < 256 →
      (d.setDebounceTimeMs u).2.wire.regs REG_DEBOUNCE % 32 = max 9 (min u 40) - 9 ∧
      (d.setDebounceTimeMs u).2.wire.regs REG_DEBOUNCE &&& 0xe0 = R &&& 0xe0 ∧
      (d.setDebounceTimeMs u).2.wire.regs REG_DEBOUNCE < 256 := by
    intro u hu
    obtain ⟨_, h2, h3, _⟩ := setDebounceTimeMs_ok d u R hu hR hcontent hok
    obtain ⟨m1, m2⟩ := low5_masks (max 9 (min u 40) - 9) (by omega)
    refine ⟨?_, ?_, h3⟩
    · rw [← (byte_fields_5_3 _ h3).1, h2]
      exact field_get_written R _ 0xe0 0x1f (by decide) m1
    · rw [h2]
      exact field_keep_other R _ 0xe0 m2
  obtain ⟨k1, k2, k3⟩ := key v hv
  refine ⟨k1, ?_, k2, ?_, ?_, ?_⟩
  · have a := (byte_fields_5_3 _ k3).2
    have b := (byte_fields_5_3 R hR).2
    omega
  · exact (key 5 (by decide)).1
  · exact (key 100 (by decide)).1
  · exact (key 20 (by decide)).1

/-- Witness for C12: `setDebounceTimeMs(100)` on register `0x02` holding `0x5A`. -/
theorem setDebounceTimeMs_fields_witness :
    sampleDriver.wire.regs REG_DEBOUNCE = 0x5A ∧
    (sampleDriver.setDebounceTimeMs 100).2.wire.regs REG_DEBOUNCE % 32 = 31 ∧
    (sampleDriver.setDebounceTimeMs 100).2.wire.regs REG_DEBOUNCE / 32 = 0x5A / 32 :=
  ⟨rfl,
    (setDebounceTimeMs_fields sampleDriver 100 0x5A (by decide) (by decide) rfl
      (fun _ => rfl)).1,
    (setDebounceTimeMs_fields sampleDriver 100 0x5A (by decide) (by decide) rfl
      (fun _ => rfl)).2.1⟩

/-- C13: for every content `R` of register `0x02`, `getDebounceTimeMs()` returns
`(R & 0x1F) + 9`, a value between 9 and 40; the sum fits in 8 bits. -/
theorem getDebounceTimeMs_range (d : MAX7360) (R : Nat) (hR : R < 256)
    (hcontent : d.wire.regs REG_DEBOUNCE = R) (hok : d.wire.stat d.wire.count = 0) :
    d.getDebounceTimeMs.1 = (R &&& REG_DEBOUNCE_MASK) + REG_DEBOUNCE_MS_OFFSET ∧
    9 ≤ d.getDebounceTimeMs.1 ∧ d.getDebounceTimeMs.1 ≤ 40 ∧
    (R &&& REG_DEBOUNCE_MASK) + REG_DEBOUNCE_MS_OFFSET < 256 := by
  have hle : R &&& 0x1f ≤ 0x1f := Nat.and_le_right
  have hval : d.getDebounceTimeMs.1 = (R &&& 0x1f) + 9 := by
    rw [getDebounceTimeMs_value d hok, hcontent, Nat.mod_eq_of_lt hR]
  simp only [REG_DEBOUNCE_MASK, REG_DEBOUNCE_MS_OFFSET]
  refine ⟨hval, ?_, ?_, ?_⟩ <;> omega

/-- Witness for C13: register `0x02` holding `0x5A`. -/
theorem getDebounceTimeMs_range_witness :
    sampleDriver.wire.regs REG_DEBOUNCE = 0x5A ∧
    sampleDriver.getDebounceTimeMs.1 = (0x5A &&& REG_DEBOUNCE_MASK) + REG_DEBOUNCE_MS_OFFSET :=
  ⟨rfl, (getDebounceTimeMs_range sampleDriver 0x5A (by decide) rfl rfl).1⟩

/-! ## The bus address -/

/-- C14 (what the code does): the constructor stores its address argument unchanged for every
argument, also for 0..3, and `readRegister` and `writeRegister` address their transactions
to that stored value; constructed with 2, the driver uses the bus address 2 and not
`2 | 0x30`. -/
theorem construct_stores_address_unchanged (a : Nat) (w : TwoWire) (reg value : Nat) :
    (MAX7360.construct a w).addr = a ∧
    ((MAX7360.construct a w).readRegister reg).2.wire.txAddr = a ∧
    ((MAX7360.construct a w).writeRegister reg value).2.wire.txAddr = a ∧
    (MAX7360.construct 2 w).addr = 2 ∧
    (MAX7360.construct 2 w).addr ≠ 2 ||| 0x30 := by
  have hr : List.range 1 = [0] := rfl
  refine ⟨rfl, ?_, ?_, rfl, ?_⟩
  · unfold MAX7360.readRegister TwoWire.endTransmission TwoWire.beginTransmission
      TwoWire.write TwoWire.requestFrom TwoWire.read MAX7360.construct
    by_cases h : w.stat w.count = 0 <;> simp [h, hr]
  · unfold MAX7360.writeRegister TwoWire.endTransmission TwoWire.beginTransmission
      TwoWire.write MAX7360.construct
    by_cases h : w.stat w.count = 0 <;> simp [h]
  · intro h
    exact absurd (show (2 : Nat) = 2 ||| 0x30 from h) (by decide)

/-! ## Key mapping tables -/

/-- The loop of `readableToRaw` returns the first index, from `ii` on, whose entry is `c`, when
some index `i` among the `n` it visits holds `c`. -/
theorem readableToRawLoop_first (table : List Nat) (c : Nat) :
    ∀ n ii i, ii ≤ i → i < ii + n → table.getD i 0 = c →
      ∃ j, ii ≤ j ∧ j ≤ i ∧ table.getD j 0 = c ∧
        (∀ k, ii ≤ k → k < j → table.getD k 0 ≠ c) ∧
        MAX7360KeyMappingTable.readableToRawLoop table c ii n = j % 256 := by
  intro n
  induction n with
  | zero =>
    intro ii i h1 h2 _
    omega
  | succ n ih =>
    intro ii i h1 h2 hc
    by_cases h : table.getD ii 0 = c
    · refine ⟨ii, Nat.le_refl _, h1, h, ?_, ?_⟩
      · intro k hk1 hk2
        omega
      · rw [MAX7360KeyMappingTable.readableToRawLoop, if_pos h]
    · have hne : ii ≠ i := by
        intro e
        rw [e] at h
        exact h hc
      obtain ⟨j, j1, j2, j3, j4, j5⟩ := ih (ii + 1) i (by omega) (by omega) hc
      refine ⟨j, by omega, j2, j3, ?_, ?_⟩
      · intro k hk1 hk2
        by_cases hk : k = ii
        · rw [hk]
          exact h
        · exact j4 k (by omega) hk2
      · rw [MAX7360KeyMappingTable.readableToRawLoop, if_neg h, j5]

/-- What `readableToRaw(rawToReadable(i))` returns for an index inside a table of at most 64
slots: the smallest index whose slot holds the same symbol as slot `i`. -/
theorem readableToRaw_rawToReadable (t : MAX7360KeyMappingTable) (i : Nat)
    (hsize : t.tableSize ≤ 64) (hi : i < t.tableSize) :
    ∃ j, j ≤ i ∧ t.readableToRaw (t.rawToReadable i) = j ∧
      t.rawToReadable j = t.rawToReadable i ∧
      (∀ k < j, t.rawToReadable k ≠ t.rawToReadable i) := by
  have hraw : ∀ k, k ≤ i → t.rawToReadable k = t.table.getD k 0 := by
    intro k hk
    simp [MAX7360KeyMappingTable.rawToReadable, show k < t.tableSize by omega]
  obtain ⟨j, _, j2, j3, j4, j5⟩ := readableToRawLoop_first t.table (t.rawToReadable i)
    t.tableSize 0 i (Nat.zero_le _) (by omega) (hraw i (Nat.le_refl _)).symm
  refine ⟨j, j2, ?_, ?_, ?_⟩
  · unfold MAX7360KeyMappingTable.readableToRaw
    rw [j5]
    omega
  · rw [hraw j j2]
    exact j3
  · intro k hk
    rw [hraw k (by omega)]
    exact j4 k (Nat.zero_le _) hk

/-- The built-in phone table holds the symbol `9` in slots 10 and 18, so `readableToRaw` maps
the symbol of slot 18 to index 10. -/
theorem phoneTable_nine_twice :
    MAX7360KeyMappingPhone.rawToReadable 10 = '9'.toNat ∧
    MAX7360KeyMappingPhone.rawToReadable 18 = '9'.toNat ∧
    MAX7360KeyMappingPhone.readableToRaw (MAX7360KeyMappingPhone.rawToReadable 18) = 10 := by
  decide

/-- C15 (as stated, refuted): in the two-slot table holding `A` twice, slot 1 holds a non-zero
symbol and `readableToRaw(rawToReadable(1))` returns 0, not 1. -/
theorem readableToRaw_duplicate_counterexample :
    duplicateTable.tableSize ≤ 64 ∧
    duplicateTable.rawToReadable 1 ≠ 0 ∧
    duplicateTable.readableToRaw (duplicateTable.rawToReadable 1) = 0 ∧
    duplicateTable.readableToRaw (duplicateTable.rawToReadable 1) ≠ 1 := by
  decide

/-- C15 (amended): for every direct table of size at most 64 and every index `i` whose slot
holds a non-zero symbol that no slot of smaller index holds,
`readableToRaw(rawToReadable(i))` returns `i`. -/
theorem readableToRaw_rawToReadable_assigned (t : MAX7360KeyMappingTable) (i : Nat)
    (hsize : t.tableSize ≤ 64) (hi : i < t.tableSize) (_hassigned : t.rawToReadable i ≠ 0)
    (hfirst : ∀ k < i, t.rawToReadable k ≠ t.rawToReadable i) :
    t.readableToRaw (t.rawToReadable i) = i := by
  obtain ⟨j, j1, j2, j3, _⟩ := readableToRaw_rawToReadable t i hsize hi
  rw [j2]
  by_contra hne
  exact hfirst j (by omega) j3

/-- Witness for C15 (amended): slot 11 of the phone table, which holds the digit `0`
(character code 48) and is the first slot to hold it. -/
theorem readableToRaw_rawToReadable_assigned_witness :
    (MAX7360KeyMappingPhone.tableSize ≤ 64 ∧ 11 < MAX7360KeyMappingPhone.tableSize ∧
      MAX7360KeyMappingPhone.rawToReadable 11 = '0'.toNat) ∧
    MAX7360KeyMappingPhone.readableToRaw (MAX7360KeyMappingPhone.rawToReadable 11) = 11 :=
  ⟨by decide,
    readableToRaw_rawToReadable_assigned MAX7360KeyMappingPhone 11 (by decide) (by decide)
      (by decide) (by decide)⟩

/-- On the phone table: slot 4 is unassigned and `readableToRaw(rawToReadable(4))` returns 4, the
index of that unsupported key, not `FIFO_KEY_NONE`; the same index comes back for the
unassigned slot 5 and for key 30, which lies beyond the table. -/
theorem readableToRaw_unassigned_phoneTable :
    MAX7360KeyMappingPhone.tableSize ≤ 64 ∧
    MAX7360KeyMappingPhone.rawToReadable 4 = 0 ∧
    MAX7360KeyMappingPhone.readableToRaw (MAX7360KeyMappingPhone.rawToReadable 4) = 4 ∧
    MAX7360KeyMappingPhone.readableToRaw (MAX7360KeyMappingPhone.rawToReadable 4) ≠
      FIFO_KEY_NONE ∧
    MAX7360KeyMappingPhone.readableToRaw (MAX7360KeyMappingPhone.rawToReadable 5) = 4 ∧
    MAX7360KeyMappingPhone.rawToReadable 30 = 0 ∧
    MAX7360KeyMappingPhone.readableToRaw (MAX7360KeyMappingPhone.rawToReadable 30) = 4 := by
  decide

/-- C16 (what the code does): `readableToRaw` has no test for the no-symbol value 0. For every
direct table of size at most 64 and every index `i` whose slot is unassigned (holds 0),
`readableToRaw(rawToReadable(i))` returns the smallest index whose slot holds 0, an index
at most `i`, and not the sentinel `FIFO_KEY_NONE`. -/
theorem readableToRaw_rawToReadable_unassigned (t : MAX7360KeyMappingTable) (i : Nat)
    (hsize : t.tableSize ≤ 64) (hi : i < t.tableSize) (hzero : t.rawToReadable i = 0) :
    ∃ j, j ≤ i ∧ t.readableToRaw (t.rawToReadable i) = j ∧ t.rawToReadable j = 0 ∧
      (∀ k < j, t.rawToReadable k ≠ 0) ∧
      t.readableToRaw (t.rawToReadable i) ≠ FIFO_KEY_NONE := by
  obtain ⟨j, j1, j2, j3, j4⟩ := readableToRaw_rawToReadable t i hsize hi
  rw [hzero] at j3 j4
  refine ⟨j, j1, j2, j3, j4, ?_⟩
  rw [j2]
  simp only [FIFO_KEY_NONE]
  omega

/-- Witness for C16: slot 5 of the phone table; the first unassigned slot is 4. -/
theorem readableToRaw_rawToReadable_unassigned_witness :
    (MAX7360KeyMappingPhone.tableSize ≤ 64 ∧ 5 < MAX7360KeyMappingPhone.tableSize ∧
      MAX7360KeyMappingPhone.rawToReadable 5 = 0) ∧
    ∃ j, j ≤ 5 ∧
      MAX7360KeyMappingPhone.readableToRaw (MAX7360KeyMappingPhone.rawToReadable 5) = j ∧
      MAX7360KeyMappingPhone.rawToReadable j = 0 ∧
      (∀ k < j, MAX7360KeyMappingPhone.rawToReadable k ≠ 0) ∧
      MAX7360KeyMappingPhone.readableToRaw (MAX7360KeyMappingPhone.rawToReadable 5) ≠
        FIFO_KEY_NONE :=
  ⟨by decide,
    readableToRaw_rawToReadable_unassigned MAX7360KeyMappingPhone 5 (by decide) (by decide)
      (by decide)⟩

/-- C17: the phone-keypad mapping is a table of 24 slots in which `rawToReadable(0)` is `1`,
`rawToReadable(3)` is `*`, `rawToReadable(4)` is 0 (no mapping), and `rawToReadable(i)` is 0
for every index `i >= 24`. -/
theorem phoneTable_entries :
    MAX7360KeyMappingPhone.tableSize = 24 ∧
    MAX7360KeyMappingPhone.table.length = 24 ∧
    MAX7360KeyMappingPhone.rawToReadable 0 = '1'.toNat ∧
    MAX7360KeyMappingPhone.rawToReadable 3 = '*'.toNat ∧
    MAX7360KeyMappingPhone.rawToReadable 4 = 0 ∧
    (∀ i, 24 ≤ i → MAX7360KeyMappingPhone.rawToReadable i = 0) := by
  refine ⟨rfl, rfl, by decide, by decide, by decide, ?_⟩
  intro i hi
  have h : ¬ i < MAX7360KeyMappingPhone.tableSize := by
    show ¬ i < 24
    omega
  simp [MAX7360KeyMappingTable.rawToReadable, h]

/-! ## Mapped keys -/

/-- The key index of a decoded event is at most 63, or the no-key value. -/
theorem fromRawValue_rawKey_range (s : MAX7360Key) (b : Nat) :
    (s.fromRawValue b).rawKey ≤ 63 ∨ (s.fromRawValue b).rawKey = FIFO_KEY_NONE := by
  by_cases hs : b ∈ specialBytes
  · simp only [specialBytes, List.mem_cons, List.mem_singleton, List.not_mem_nil,
      or_false] at hs
    rcases hs with rfl | rfl | rfl | rfl | rfl | rfl | rfl | rfl
    · exact Or.inr rfl
    · exact Or.inr rfl
    · exact Or.inl (Nat.le_refl 63)
    · exact Or.inl (Nat.le_refl 63)
    · exact Or.inr rfl
    · exact Or.inr rfl
    · exact Or.inl (show (62 : Nat) ≤ 63 by decide)
    · exact Or.inl (Nat.le_refl 63)
  · rw [fromRawValue_default s b hs]
    exact Or.inl Nat.and_le_right

/-- Decoding keeps the mapping the object was constructed with. -/
theorem fromRawValue_keyMapping (s : MAX7360Key) (b : Nat) :
    (s.fromRawValue b).keyMapping = s.keyMapping := by
  unfold MAX7360Key.fromRawValue
  split_ifs <;> rfl

/-- C18: for every decoded key event, `getMappedKey()` returns 0 when the event carries no key
index, with or without a mapping attached; with a key index and a mapping attached it
returns the table's entry at the key index (0 when the index is at or beyond the table
size); with a key index and no mapping attached it returns the character code
`'0' + key index`. -/
theorem getMappedKey_cases (s : MAX7360Key) (b : Nat) :
    ((s.fromRawValue b).hasKey = false → (s.fromRawValue b).getMappedKey = 0) ∧
    (∀ t, (s.fromRawValue b).keyMapping = some t → (s.fromRawValue b).hasKey = true →
      (s.fromRawValue b).getMappedKey = t.rawToReadable (s.fromRawValue b).getRawKey ∧
      ((s.fromRawValue b).getRawKey < t.tableSize →
        (s.fromRawValue b).getMappedKey = t.table.getD (s.fromRawValue b).getRawKey 0) ∧
      (t.tableSize ≤ (s.fromRawValue b).getRawKey → (s.fromRawValue b).getMappedKey = 0)) ∧
    ((s.fromRawValue b).keyMapping = none → (s.fromRawValue b).hasKey = true →
      (s.fromRawValue b).getMappedKey = '0'.toNat + (s.fromRawValue b).getRawKey) := by
  have hrange := fromRawValue_rawKey_range s b
  generalize s.fromRawValue b = e at hrange
  refine ⟨?_, ?_, ?_⟩
  · intro h
    have hk : e.rawKey = FIFO_KEY_NONE := by
      simpa [MAX7360Key.hasKey] using h
    simp [MAX7360Key.getMappedKey, hk]
  · intro t ht h
    have hk : e.rawKey ≠ FIFO_KEY_NONE := by
      simpa [MAX7360Key.hasKey] using h
    have hm : e.getMappedKey = t.rawToReadable e.getRawKey := by
      simp [MAX7360Key.getMappedKey, MAX7360Key.getRawKey, hk, ht]
    refine ⟨hm, ?_, ?_⟩
    · intro hlt
      rw [hm, MAX7360KeyMappingTable.rawToReadable, if_pos hlt]
    · intro hge
      rw [hm, MAX7360KeyMappingTable.rawToReadable, if_neg (by omega)]
  · intro hnone h
    have hk : e.rawKey ≠ FIFO_KEY_NONE := by
      simpa [MAX7360Key.hasKey] using h
    have h63 : e.rawKey ≤ 63 := by
      rcases hrange with h1 | h1
      · exact h1
      · exact absurd h1 hk
    have h0 : '0'.toNat = 48 := by decide
    simp only [MAX7360Key.getMappedKey, MAX7360Key.getRawKey, hnone, if_pos hk, h0]
    omega

/-! ## resetRegisterDefaults -/

/-- Whenever `resetRegisterDefaults` returns, it returns `true`. -/
theorem resetRegisterDefaults_fst (d : MAX7360) (fuel : Nat) (r : Bool × MAX7360)
    (h : d.resetRegisterDefaults fuel = some r) : r.1 = true := by
  unfold MAX7360.resetRegisterDefaults at h
  cases hd : MAX7360.drainFifo fuel d with
  | none =>
    rw [hd] at h
    cases h
  | some d0 =>
    rw [hd] at h
    cases h
    rfl

/-- When the first read of the FIFO register gives `FIFO_EMPTY` the loop of
`resetRegisterDefaults` ends after that read. -/
theorem drainFifo_empty (d : MAX7360) (fuel : Nat)
    (hfifo : (d.readRegister REG_KEYS_FIFO).1 = FIFO_EMPTY) :
    MAX7360.drainFifo (fuel + 1) d = some (d.readRegister REG_KEYS_FIFO).2 := by
  simp [MAX7360.drainFifo, hfifo]

/-- C19 (what the code does): when the FIFO reads as empty, `resetRegisterDefaults()` returns
`true` whatever the transport reports for the register writes it issues. -/
theorem resetRegisterDefaults_returns_true (d : MAX7360) (fuel : Nat)
    (hfifo : (d.readRegister REG_KEYS_FIFO).1 = FIFO_EMPTY) :
    (d.resetRegisterDefaults (fuel + 1)).map Prod.fst = some true := by
  simp [MAX7360.resetRegisterDefaults, drainFifo_empty d fuel hfifo]

/-- Witness for C19: on `failingDriver` the FIFO reads as empty, the first register write
fails (`writeRegister` returns false and register `0x01` keeps `0x5A`), and
`resetRegisterDefaults()` returns true. -/
theorem resetRegisterDefaults_returns_true_witness :
    (failingDriver.readRegister REG_KEYS_FIFO).1 = FIFO_EMPTY ∧
    ((failingDriver.readRegister REG_KEYS_FIFO).2.writeRegister REG_CONFIG 0b00001010).1
      = false ∧
    (failingDriver.resetRegisterDefaults 1).map (fun r => r.2.wire.regs REG_CONFIG)
      = some 0x5A ∧
    (failingDriver.resetRegisterDefaults 1).map Prod.fst = some true :=
  ⟨by decide, by decide, by decide,
    resetRegisterDefaults_returns_true failingDriver 0 (by decide)⟩

/-- A successful `writeRegister` of a byte to a byte address. -/
theorem writeRegister_ok (d : MAX7360) (reg value : Nat) (hreg : reg < 256)
    (hvalue : value < 256) (hok : ∀ n, d.wire.stat n = 0) :
    (d.writeRegister reg value).2.wire.regs = Function.update d.wire.regs reg value ∧
    (∀ n, (d.writeRegister reg value).2.wire.stat n = 0) := by
  obtain ⟨_, h2, h3, _, _⟩ := writeRegister_effect d reg value
  refine ⟨?_, ?_⟩
  · rw [h2, if_pos (hok _), Nat.mod_eq_of_lt hreg, Nat.mod_eq_of_lt hvalue]
  · intro n
    rw [h3]
    exact hok n

/-- The value `getGpoEnable` returns when its transmission succeeds. -/
theorem getGpoEnable_value (d : MAX7360) (h : d.wire.stat d.wire.count = 0) :
    d.getGpoEnable.1 = d.wire.regs REG_DEBOUNCE % 256 &&& REG_GPO_ENABLE_MASK := by
  have h2 : REG_DEBOUNCE % 256 = REG_DEBOUNCE := rfl
  show (d.readRegister REG_DEBOUNCE).1 &&& REG_GPO_ENABLE_MASK = _
  rw [readRegister_value d REG_DEBOUNCE h, h2]

/-- After `resetRegisterDefaults` on a register file whose FIFO reads as empty and whose
transmissions succeed, register `0x02` holds `0xFF`. -/
theorem resetRegisterDefaults_ok (d : MAX7360) (fuel : Nat)
    (hfifo : d.wire.regs REG_KEYS_FIFO = FIFO_EMPTY) (hok : ∀ n, d.wire.stat n = 0) :
    ∃ d', d.resetRegisterDefaults (fuel + 1) = some (true, d') ∧
      d'.wire.regs REG_DEBOUNCE = 0xff ∧ (∀ n, d'.wire.stat n = 0) := by
  have hread : (d.readRegister REG_KEYS_FIFO).1 = FIFO_EMPTY := by
    rw [readRegister_value d REG_KEYS_FIFO (hok _)]
    have h0 : REG_KEYS_FIFO % 256 = REG_KEYS_FIFO := rfl
    rw [h0, hfifo]
    rfl
  obtain ⟨_, f2, _, _⟩ := readRegister_frame d REG_KEYS_FIFO
  have s0 : ∀ n, (d.readRegister REG_KEYS_FIFO).2.wire.stat n = 0 := by
    intro n
    rw [f2]
    exact hok n
  obtain ⟨_, s1⟩ := writeRegister_ok _ REG_CONFIG 0b00001010 (by decide) (by decide) s0
  obtain ⟨r2, s2⟩ := writeRegister_ok _ REG_DEBOUNCE 0xff (by decide) (by decide) s1
  obtain ⟨r3, s3⟩ := writeRegister_ok _ REG_KEY_SWITCH_INTERRUPT 0x00 (by decide) (by decide) s2
  obtain ⟨r4, s4⟩ := writeRegister_ok _ REG_GPO_CONTROL 0b11111110 (by decide) (by decide) s3
  obtain ⟨r5, s5⟩ := writeRegister_ok _ REG_AUTO_REPEAT 0x00 (by decide) (by decide) s4
  obtain ⟨r6, s6⟩ := writeRegister_ok _ REG_AUTO_SLEEP 0b00000111 (by decide) (by decide) s5
  refine ⟨(MAX7360.setConfigResetGpio
    ((((((((d.readRegister REG_KEYS_FIFO).2.writeRegister REG_CONFIG 0b00001010).2.writeRegister
      REG_DEBOUNCE 0xff).2.writeRegister REG_KEY_SWITCH_INTERRUPT 0x00).2.writeRegister
      REG_GPO_CONTROL 0b11111110).2.writeRegister REG_AUTO_REPEAT 0x00).2.writeRegister
      REG_AUTO_SLEEP 0b00000111).2)).2, ?_, ?_, ?_⟩
  · simp only [MAX7360.resetRegisterDefaults, drainFifo_empty d fuel hread]
  · show (MAX7360.setRegisterMask _ REG_GPIO_CONFIG 0xff REG_GPIO_CONFIG_RESET_MASK).2.wire.regs
      REG_DEBOUNCE = 0xff
    rw [setRegisterMask_other _ REG_GPIO_CONFIG 0xff REG_GPIO_CONFIG_RESET_MASK REG_DEBOUNCE
      (by decide), r6, Function.update_noteq (by decide), r5,
      Function.update_noteq (by decide), r4, Function.update_noteq (by decide), r3,
      Function.update_noteq (by decide), r2, Function.update_same]
  · intro n
    show (MAX7360.setRegisterMask _ REG_GPIO_CONFIG 0xff REG_GPIO_CONFIG_RESET_MASK).2.wire.stat
      n = 0
    rw [(setRegisterMask_effect _ REG_GPIO_CONFIG 0xff REG_GPIO_CONFIG_RESET_MASK).2.2.1]
    exact s6 n

/-- C20 (what the code does): after `resetRegisterDefaults()` on a register file whose FIFO reads
as empty and whose writes succeed, `getDebounceTimeMs()` returns 40 and `getGpoEnable()`
returns `0xE0` (7 << 5), which is not `REG_GPO_ENABLE_765432` (6 << 5) and is none of the
seven enumerated GPO-enable values. -/
theorem resetRegisterDefaults_gpo_enable (d : MAX7360) (fuel : Nat)
    (hfifo : d.wire.regs REG_KEYS_FIFO = FIFO_EMPTY) (hok : ∀ n, d.wire.stat n = 0) :
    ∃ d', d.resetRegisterDefaults (fuel + 1) = some (true, d') ∧
      d'.getDebounceTimeMs.1 = 40 ∧
      d'.getGpoEnable.1 = 0xe0 ∧
      d'.getGpoEnable.1 ≠ REG_GPO_ENABLE_765432 ∧
      d'.getGpoEnable.1 ∉ gpoEnableValues := by
  obtain ⟨d', h1, h2, h3⟩ := resetRegisterDefaults_ok d fuel hfifo hok
  have hg : d'.getGpoEnable.1 = 0xe0 := by
    rw [getGpoEnable_value d' (h3 _), h2]
    decide
  refine ⟨d', h1, ?_, hg, ?_, ?_⟩
  · rw [getDebounceTimeMs_value d' (h3 _), h2]
    decide
  · rw [hg]
    decide
  · rw [hg]
    decide

/-- Witness for C20: `emptyFifoDriver`, whose FIFO register holds `0x3F`. -/
theorem resetRegisterDefaults_gpo_enable_witness :
    emptyFifoDriver.wire.regs REG_KEYS_FIFO = FIFO_EMPTY ∧
    (emptyFifoDriver.resetRegisterDefaults 1).map (fun r => r.2.getGpoEnable.1) = some 0xe0 ∧
    REG_GPO_ENABLE_765432 = 0xc0 ∧
    ∃ d', emptyFifoDriver.resetRegisterDefaults 1 = some (true, d') ∧
      d'.getDebounceTimeMs.1 = 40 ∧
      d'.getGpoEnable.1 = 0xe0 ∧
      d'.getGpoEnable.1 ≠ REG_GPO_ENABLE_765432 ∧
      d'.getGpoEnable.1 ∉ gpoEnableValues :=
  ⟨rfl, by decide, by decide,
    resetRegisterDefaults_gpo_enable emptyFifoDriver 0 rfl (fun _ => rfl)⟩

/-! ## Writing one field of a register -/

theorem complement8_and_self (m : Nat) (hm : m < 256) : complement8 m &&& m = 0 := by
  apply Nat.eq_of_testBit_eq
  intro i
  simp only [Nat.testBit_and, testBit_complement8 m i hm, Nat.zero_testBit]
  cases m.testBit i <;> simp

theorem complement8_lt (m : Nat) (hm : m < 256) : complement8 m < 256 := by
  rw [complement8_eq m hm]
  omega

/-- Writing the field `m` of a register through `setRegisterMask(reg, ~m, e)`, for a value `e`
that lies inside `m`, on a register file of bytes whose transmissions succeed: the field
holds `e` afterwards and the bits outside `m` are those of the prior content `R`. -/
theorem setRegisterMask_field (d : MAX7360) (reg R m e : Nat) (hreg : reg < 256)
    (hR : R < 256) (hm : m < 256) (he : e &&& m = e)
    (hcontent : d.wire.regs reg = R) (hok : ∀ n, d.wire.stat n = 0) :
    (d.setRegisterMask reg (complement8 m) e).1 = true ∧
    (d.setRegisterMask reg (complement8 m) e).2.wire.regs =
      Function.update d.wire.regs reg ((R &&& complement8 m) ||| e) ∧
    ((R &&& complement8 m) ||| e) &&& m = e ∧
    ((R &&& complement8 m) ||| e) &&& complement8 m = R &&& complement8 m ∧
    (R &&& complement8 m) ||| e < 256 ∧
    (∀ n, (d.setRegisterMask reg (complement8 m) e).2.wire.stat n = 0) := by
  have hc := complement8_lt m hm
  have hle : e ≤ m := by
    rw [← he]
    exact Nat.and_le_right
  have he2 : e < 256 := by omega
  have hout : e &&& complement8 m = 0 := by
    rw [← he, Nat.and_assoc, Nat.and_comm m, complement8_and_self m hm, Nat.and_zero]
  obtain ⟨h1, h2, h3⟩ := setRegisterMask_ok d reg R (complement8 m) e hreg hR hc he2 hcontent hok
  refine ⟨h1, h2, ?_, ?_, ?_, h3⟩
  · exact field_get_written R e (complement8 m) m (complement8_and_self m hm) he
  · exact field_keep_other R e (complement8 m) hout
  · exact Nat.or_lt_two_pow (Nat.and_lt_two_pow R (show complement8 m < 2 ^ 8 by omega))
      (show e < 2 ^ 8 by omega)

/-! ## GPO enable -/

/-- C21: on a register file whose writes succeed, for every argument `v` and every prior content
`R` of register `0x02`, `setGpoEnable(v)` changes only bits 7:5: afterwards `getGpoEnable()`
returns `v & 0xE0` (which is `v` for each of the seven enumerated values), the low five
bits of the register are those of `R`, and `getDebounceTimeMs()` returns what it returned
before the call. -/
theorem setGpoEnable_frame (d : MAX7360) (v R : Nat) (hR : R < 256)
    (hcontent : d.wire.regs REG_DEBOUNCE = R) (hok : ∀ n, d.wire.stat n = 0) :
    (d.setGpoEnable v).2.getGpoEnable.1 = v &&& 0xe0 ∧
    (v ∈ gpoEnableValues → (d.setGpoEnable v).2.getGpoEnable.1 = v) ∧
    (d.setGpoEnable v).2.wire.regs REG_DEBOUNCE % 32 = R % 32 ∧
    (d.setGpoEnable v).2.getDebounceTimeMs.1 = d.getDebounceTimeMs.1 := by
  have hle : v &&& 0xe0 ≤ 0xe0 := Nat.and_le_right
  have he : (v &&& 0xe0) &&& 0xe0 = v &&& 0xe0 := by
    rw [Nat.and_assoc, Nat.and_self]
  have hc : complement8 0xe0 = 0x1f := by decide
  have hset : d.setGpoEnable v = d.setRegisterMask REG_DEBOUNCE (complement8 0xe0)
      (v &&& 0xe0) := by
    show d.setRegisterMask REG_DEBOUNCE (complement8 REG_GPO_ENABLE_MASK)
      ((v &&& REG_GPO_ENABLE_MASK) % 256) = _
    simp only [REG_GPO_ENABLE_MASK]
    rw [Nat.mod_eq_of_lt (by omega)]
  obtain ⟨_, h2, h3, h4, h5, h6⟩ := setRegisterMask_field d REG_DEBOUNCE R 0xe0 (v &&& 0xe0)
    (by decide) hR (by decide) he hcontent hok
  rw [← hset] at h2 h6
  rw [hc] at h2 h3 h4 h5
  have hnew : (d.setGpoEnable v).2.wire.regs REG_DEBOUNCE = (R &&& 0x1f) ||| (v &&& 0xe0) := by
    rw [h2, Function.update_same]
  have hget : (d.setGpoEnable v).2.getGpoEnable.1 = v &&& 0xe0 := by
    rw [getGpoEnable_value _ (h6 _), hnew, Nat.mod_eq_of_lt h5]
    exact h3
  refine ⟨hget, ?_, ?_, ?_⟩
  · intro hv
    rw [hget]
    simp only [gpoEnableValues, List.mem_cons, List.mem_singleton, List.not_mem_nil,
      or_false] at hv
    rcases hv with rfl | rfl | rfl | rfl | rfl | rfl | rfl <;> decide
  · rw [hnew, ← (byte_fields_5_3 _ h5).1, ← (byte_fields_5_3 R hR).1]
    exact h4
  · rw [getDebounceTimeMs_value _ (h6 _), getDebounceTimeMs_value d (hok _), hnew,
      Nat.mod_eq_of_lt h5, hcontent, Nat.mod_eq_of_lt hR, h4]

/-- Witness for C21: `setGpoEnable(REG_GPO_ENABLE_765)` on register `0x02` holding `0x5A`. -/
theorem setGpoEnable_frame_witness :
    sampleDriver.wire.regs REG_DEBOUNCE = 0x5A ∧
    (sampleDriver.setGpoEnable REG_GPO_ENABLE_765).2.getGpoEnable.1 = REG_GPO_ENABLE_765 ∧
    (sampleDriver.setGpoEnable REG_GPO_ENABLE_765).2.getDebounceTimeMs.1 =
      sampleDriver.getDebounceTimeMs.1 :=
  ⟨rfl,
    (setGpoEnable_frame sampleDriver REG_GPO_ENABLE_765 0x5A (by decide) rfl
      (fun _ => rfl)).2.1 (by decide),
    (setGpoEnable_frame sampleDriver REG_GPO_ENABLE_765 0x5A (by decide) rfl
      (fun _ => rfl)).2.2.2⟩

/-! ## Fade time -/

set_option maxRecDepth 100000 in
theorem byte_fields_3_5 : ∀ x < 256, x &&& 0x07 = x % 8 ∧ x &&& 0xf8 = x / 8 * 8 := by
  decide

theorem low3_mask : ∀ e < 8, e &&& 0x07 = e := by
  decide

/-- What `setConfigFadeTime` does on a register file of bytes whose transmissions succeed, for a
value inside the fade-time field (0..7, which covers the six enumerated fade times): bits 2:0
of register `0x40` become the value and bits 7:3 stay those of the prior content `R`. -/
theorem setConfigFadeTime_in_range (d : MAX7360) (value R : Nat) (hvalue : value ≤ 7)
    (hR : R < 256) (hcontent : d.wire.regs REG_GPIO_CONFIG = R)
    (hok : ∀ n, d.wire.stat n = 0) :
    (d.setConfigFadeTime value).2.wire.regs REG_GPIO_CONFIG % 8 = value ∧
    (d.setConfigFadeTime value).2.wire.regs REG_GPIO_CONFIG / 8 = R / 8 := by
  have hc : complement8 0x07 = 0xf8 := by decide
  obtain ⟨_, h2, h3, h4, h5, _⟩ := setRegisterMask_field d REG_GPIO_CONFIG R 0x07 value
    (by decide) hR (by decide) (low3_mask value (by omega)) hcontent hok
  rw [hc] at h2 h3 h4 h5
  have hnew : (d.setConfigFadeTime value).2.wire.regs REG_GPIO_CONFIG =
      (R &&& 0xf8) ||| value := by
    show (d.setRegisterMask REG_GPIO_CONFIG (complement8 0x07) value).2.wire.regs
      REG_GPIO_CONFIG = _
    rw [hc, h2, Function.update_same]
  rw [hnew]
  have a := byte_fields_3_5 _ h5
  have b := byte_fields_3_5 R hR
  refine ⟨?_, ?_⟩
  · rw [← a.1]
    exact h3
  · omega

/-- C22 (what the code does): `setConfigFadeTime` does not mask its argument. On `sampleDriver`,
whose register `0x40` holds `0x5A`, `setConfigFadeTime(0x80)` succeeds and leaves the
register holding `0xD8`: bit 7 (rotary enable) is set, so bits 7:3 differ from those of the
prior content. -/
theorem setConfigFadeTime_out_of_range :
    sampleDriver.wire.regs REG_GPIO_CONFIG = 0x5A ∧
    (sampleDriver.setConfigFadeTime 0x80).1 = true ∧
    (sampleDriver.setConfigFadeTime 0x80).2.wire.regs REG_GPIO_CONFIG = 0xD8 ∧
    (sampleDriver.setConfigFadeTime 0x80).2.wire.regs REG_GPIO_CONFIG / 8 ≠ 0x5A / 8 ∧
    ((sampleDriver.setConfigFadeTime 0x80).2.wire.regs REG_GPIO_CONFIG).testBit 7 = true ∧
    (0x5A : Nat).testBit 7 = false := by
  decide

/-! ## Blink period and blink on time -/

/-- Writing two disjoint fields of a register gives the same content in either order. -/
theorem field_writes_commute (R m1 m2 e1 e2 : Nat) (hm1 : m1 < 256) (hm2 : m2 < 256)
    (hd : m1 &&& m2 = 0) (he1 : e1 &&& m1 = e1) (he2 : e2 &&& m2 = e2) :
    (((R &&& complement8 m1) ||| e1) &&& complement8 m2) ||| e2 =
      (((R &&& complement8 m2) ||| e2) &&& complement8 m1) ||| e1 := by
  apply Nat.eq_of_testBit_eq
  intro i
  have a1 := congrArg (fun x => x.testBit i) he1
  have a2 := congrArg (fun x => x.testBit i) he2
  have a3 := congrArg (fun x => x.testBit i) hd
  simp only [Nat.testBit_and, Nat.testBit_or, Nat.zero_testBit,
    testBit_complement8 m1 i hm1, testBit_complement8 m2 i hm2] at a1 a2 a3 ⊢
  by_cases h8 : i < 8
  · simp only [h8, decide_True, Bool.true_and]
    revert a1 a2 a3
    cases R.testBit i <;> cases m1.testBit i <;> cases m2.testBit i <;>
      cases e1.testBit i <;> cases e2.testBit i <;> simp
  · have b1 := byte_testBit_high m1 i hm1 (by omega)
    have b2 := byte_testBit_high m2 i hm2 (by omega)
    rw [b1] at a1
    rw [b2] at a2
    simp only [Bool.and_false] at a1 a2
    simp [h8, a1.symm, a2.symm]

/-- C23: on a register file whose writes succeed, for every port `p` in 0..7, every prior content
`R` of register `0x58 + p`, each enumerated blink period and each enumerated blink duty:
`setBlinkPeriod(p, period)` sets bits 4:2 of the register to the period and changes no
other bit, `setBlinkOnTimePercent(p, duty)` sets bits 1:0 to the duty and changes no other
bit, and the two calls give the same register content in either order. -/
theorem blink_fields (d : MAX7360) (p R period duty : Nat) (hp : p ≤ 7) (hR : R < 256)
    (hperiod : period ∈ blinkPeriodValues) (hduty : duty ∈ blinkOnTimeValues)
    (hcontent : d.wire.regs (REG_PORT_CONFIG + p) = R) (hok : ∀ n, d.wire.stat n = 0) :
    ((d.setBlinkPeriod p period).2.wire.regs (REG_PORT_CONFIG + p) &&& 0x1c = period ∧
      (d.setBlinkPeriod p period).2.wire.regs (REG_PORT_CONFIG + p) &&& 0xe3 = R &&& 0xe3) ∧
    ((d.setBlinkOnTimePercent p duty).2.wire.regs (REG_PORT_CONFIG + p) &&& 0x03 = duty ∧
      (d.setBlinkOnTimePercent p duty).2.wire.regs (REG_PORT_CONFIG + p) &&& 0xfc
        = R &&& 0xfc) ∧
    ((d.setBlinkPeriod p period).2.setBlinkOnTimePercent p duty).2.wire.regs
        (REG_PORT_CONFIG + p) =
      ((d.setBlinkOnTimePercent p duty).2.setBlinkPeriod p period).2.wire.regs
        (REG_PORT_CONFIG + p) := by
  have hreg : REG_PORT_CONFIG + p < 256 := by
    simp only [REG_PORT_CONFIG]
    omega
  have hmod : (REG_PORT_CONFIG + p) % 256 = REG_PORT_CONFIG + p := Nat.mod_eq_of_lt hreg
  have hc1 : complement8 0x1c = 0xe3 := by decide
  have hc2 : complement8 0x03 = 0xfc := by decide
  have he1 : period &&& 0x1c = period := by
    simp only [blinkPeriodValues, List.mem_cons, List.mem_singleton, List.not_mem_nil,
      or_false] at hperiod
    rcases hperiod with rfl | rfl | rfl | rfl | rfl | rfl <;> decide
  have he2 : duty &&& 0x03 = duty := by
    simp only [blinkOnTimeValues, List.mem_cons, List.mem_singleton, List.not_mem_nil,
      or_false] at hduty
    rcases hduty with rfl | rfl | rfl | rfl <;> decide
  have hP : ∀ (e : MAX7360), e.setBlinkPeriod p period =
      e.setRegisterMask (REG_PORT_CONFIG + p) (complement8 0x1c) period := by
    intro e
    show e.setRegisterMask ((REG_PORT_CONFIG + p) % 256) _ _ = _
    rw [hmod]
    rfl
  have hD : ∀ (e : MAX7360), e.setBlinkOnTimePercent p duty =
      e.setRegisterMask (REG_PORT_CONFIG + p) (complement8 0x03) duty := by
    intro e
    show e.setRegisterMask ((REG_PORT_CONFIG + p) % 256) _ _ = _
    rw [hmod]
    rfl
  obtain ⟨_, p2, p3, p4, p5, p6⟩ := setRegisterMask_field d (REG_PORT_CONFIG + p) R 0x1c period
    hreg hR (by decide) he1 hcontent hok
  obtain ⟨_, q2, q3, q4, q5, q6⟩ := setRegisterMask_field d (REG_PORT_CONFIG + p) R 0x03 duty
    hreg hR (by decide) he2 hcontent hok
  rw [← hP d] at p2 p6
  rw [← hD d] at q2 q6
  have hnewP : (d.setBlinkPeriod p period).2.wire.regs (REG_PORT_CONFIG + p) =
      (R &&& complement8 0x1c) ||| period := by
    rw [p2, Function.update_same]
  have hnewD : (d.setBlinkOnTimePercent p duty).2.wire.regs (REG_PORT_CONFIG + p) =
      (R &&& complement8 0x03) ||| duty := by
    rw [q2, Function.update_same]
  obtain ⟨_, pd2, _⟩ := setRegisterMask_field (d.setBlinkPeriod p period).2
    (REG_PORT_CONFIG + p) _ 0x03 duty hreg p5 (by decide) he2 hnewP p6
  obtain ⟨_, dp2, _⟩ := setRegisterMask_field (d.setBlinkOnTimePercent p duty).2
    (REG_PORT_CONFIG + p) _ 0x1c period hreg q5 (by decide) he1 hnewD q6
  rw [← hD] at pd2
  rw [← hP] at dp2
  refine ⟨⟨?_, ?_⟩, ⟨?_, ?_⟩, ?_⟩
  · rw [hnewP]
    exact p3
  · rw [hnewP, ← hc1]
    exact p4
  · rw [hnewD]
    exact q3
  · rw [hnewD, ← hc2]
    exact q4
  · rw [pd2, dp2, Function.update_same, Function.update_same]
    exact field_writes_commute R 0x1c 0x03 period duty (by decide) (by decide) (by decide)
      he1 he2

/-- Witness for C23: port 3 (register `0x5B` holding `0x5A`), blink period 4096 ms and blink on
time 25 %. -/
theorem blink_fields_witness :
    sampleDriver.wire.regs (REG_PORT_CONFIG + 3) = 0x5A ∧
    REG_PORT_BLINK_PERIOD_4096 ∈ blinkPeriodValues ∧
    REG_PORT_BLINK_ON_25_PCT ∈ blinkOnTimeValues ∧
    (sampleDriver.setBlinkPeriod 3 REG_PORT_BLINK_PERIOD_4096).2.wire.regs
      (REG_PORT_CONFIG + 3) &&& 0x1c = REG_PORT_BLINK_PERIOD_4096 ∧
    ((sampleDriver.setBlinkPeriod 3 REG_PORT_BLINK_PERIOD_4096).2.setBlinkOnTimePercent 3
        REG_PORT_BLINK_ON_25_PCT).2.wire.regs (REG_PORT_CONFIG + 3) =
      ((sampleDriver.setBlinkOnTimePercent 3 REG_PORT_BLINK_ON_25_PCT).2.setBlinkPeriod 3
        REG_PORT_BLINK_PERIOD_4096).2.wire.regs (REG_PORT_CONFIG + 3) :=
  ⟨rfl, by decide, by decide,
    (blink_fields sampleDriver 3 0x5A REG_PORT_BLINK_PERIOD_4096 REG_PORT_BLINK_ON_25_PCT
      (by decide) (by decide) (by decide) (by decide) rfl (fun _ => rfl)).1.1,
    (blink_fields sampleDriver 3 0x5A REG_PORT_BLINK_PERIOD_4096 REG_PORT_BLINK_ON_25_PCT
      (by decide) (by decide) (by decide) (by decide) rfl (fun _ => rfl)).2.2⟩

/-! ## The configuration toggles -/

/-- Setting or clearing the single bit `k` of a register through `setRegisterBitmask`, on a
register file of bytes whose transmissions succeed: bit `k` becomes `v` and every other bit
keeps its value. -/
theorem setRegisterBitmask_single_bit (d : MAX7360) (reg R k : Nat) (v : Bool)
    (hreg : reg < 256) (hR : R < 256) (hk : k < 8)
    (hcontent : d.wire.regs reg = R) (hok : ∀ n, d.wire.stat n = 0) :
    ((d.setRegisterBitmask reg (2 ^ k) v).2.wire.regs reg).testBit k = v ∧
    (∀ i, i ≠ k → ((d.setRegisterBitmask reg (2 ^ k) v).2.wire.regs reg).testBit i
      = R.testBit i) := by
  have hmask : 2 ^ k < 256 := by
    calc 2 ^ k < 2 ^ 8 := Nat.pow_lt_pow_right (by decide) hk
      _ = 256 := by decide
  have hnew : (d.setRegisterBitmask reg (2 ^ k) v).2.wire.regs reg =
      (if v then R ||| 2 ^ k else R &&& complement8 (2 ^ k)) := by
    rw [(setRegisterBitmask_ok d reg R (2 ^ k) v hreg hR hmask hcontent hok).2.1,
      Function.update_same]
  rw [hnew]
  cases v
  · refine ⟨?_, ?_⟩
    · simp [Nat.testBit_and, testBit_complement8 (2 ^ k) k hmask, Nat.testBit_two_pow]
    · intro i hi
      have hki : ¬ k = i := fun e => hi e.symm
      by_cases h8 : i < 8
      · simp [Nat.testBit_and, testBit_complement8 (2 ^ k) i hmask, Nat.testBit_two_pow, h8,
          hki]
      · simp [Nat.testBit_and, byte_testBit_high R i hR (by omega)]
  · refine ⟨?_, ?_⟩
    · simp [Nat.testBit_or, Nat.testBit_two_pow]
    · intro i hi
      have hki : ¬ k = i := fun e => hi e.symm
      simp [Nat.testBit_or, Nat.testBit_two_pow, hki]

/-- C24: on a register file whose writes succeed, each of the four global-configuration toggles
writes exactly its own bit of register `0x01` and keeps the other seven: for every prior
content `R` and every boolean `v`, `setConfigurationClearINTKonRead(v)` sets bit 5 to `v`,
`setConfigurationEnableKeyRelease(v)` bit 3, `setConfigurationAutoWakeUp(v)` bit 1 and
`setConfigurationDisableI2CTimeouts(v)` bit 0, every other bit (the sleep bit 7 among them)
keeping its value in `R`. -/
theorem configuration_toggles (d : MAX7360) (R : Nat) (v : Bool) (hR : R < 256)
    (hcontent : d.wire.regs REG_CONFIG = R) (hok : ∀ n, d.wire.stat n = 0) :
    (((d.setConfigurationClearINTKonRead v).2.wire.regs REG_CONFIG).testBit 5 = v ∧
      ∀ i, i ≠ 5 → ((d.setConfigurationClearINTKonRead v).2.wire.regs REG_CONFIG).testBit i
        = R.testBit i) ∧
    (((d.setConfigurationEnableKeyRelease v).2.wire.regs REG_CONFIG).testBit 3 = v ∧
      ∀ i, i ≠ 3 → ((d.setConfigurationEnableKeyRelease v).2.wire.regs REG_CONFIG).testBit i
        = R.testBit i) ∧
    (((d.setConfigurationAutoWakeUp v).2.wire.regs REG_CONFIG).testBit 1 = v ∧
      ∀ i, i ≠ 1 → ((d.setConfigurationAutoWakeUp v).2.wire.regs REG_CONFIG).testBit i
        = R.testBit i) ∧
    (((d.setConfigurationDisableI2CTimeouts v).2.wire.regs REG_CONFIG).testBit 0 = v ∧
      ∀ i, i ≠ 0 → ((d.setConfigurationDisableI2CTimeouts v).2.wire.regs REG_CONFIG).testBit i
        = R.testBit i) :=
  ⟨setRegisterBitmask_single_bit d REG_CONFIG R 5 v (by decide) hR (by decide) hcontent hok,
    setRegisterBitmask_single_bit d REG_CONFIG R 3 v (by decide) hR (by decide) hcontent hok,
    setRegisterBitmask_single_bit d REG_CONFIG R 1 v (by decide) hR (by decide) hcontent hok,
    setRegisterBitmask_single_bit d REG_CONFIG R 0 v (by decide) hR (by decide) hcontent hok⟩

/-- Witness for C24: clearing the key-release bit of register `0x01` holding `0x5A`. -/
theorem configuration_toggles_witness :
    sampleDriver.wire.regs REG_CONFIG = 0x5A ∧
    ((sampleDriver.setConfigurationEnableKeyRelease false).2.wire.regs REG_CONFIG).testBit 3
      = false ∧
    ((sampleDriver.setConfigurationEnableKeyRelease false).2.wire.regs REG_CONFIG).testBit 7
      = (0x5A : Nat).testBit 7 :=
  ⟨rfl,
    (configuration_toggles sampleDriver 0x5A false (by decide) rfl (fun _ => rfl)).2.1.1,
    (configuration_toggles sampleDriver 0x5A false (by decide) rfl (fun _ => rfl)).2.1.2 7
      (by decide)⟩

/-! ## Classification of events -/

/-- Exactly one of `isEmpty`, `isOverflow`, `isKeyRepeat` and `hasKey` holds of the event that
`fromRawValue` leaves in an object, whatever the object held before. -/
theorem fromRawValue_partition (s : MAX7360Key) (b : Nat) :
    (s.fromRawValue b).isEmpty.toNat + (s.fromRawValue b).isOverflow.toNat +
      (s.fromRawValue b).isKeyRepeat.toNat + (s.fromRawValue b).hasKey.toNat = 1 := by
  by_cases hs : b ∈ specialBytes
  · simp only [specialBytes, List.mem_cons, List.mem_singleton, List.not_mem_nil,
      or_false] at hs
    rcases hs with rfl | rfl | rfl | rfl | rfl | rfl | rfl | rfl <;> rfl
  · have hk : b &&& FIFO_KEY_MASK ≤ 0x3f := Nat.and_le_right
    rw [fromRawValue_default s b hs]
    simp only [specialBytes, List.mem_cons, List.mem_singleton, List.not_mem_nil, or_false,
      not_or] at hs
    obtain ⟨h1, h2, _, _, h5, h6, _, _⟩ := hs
    have hne : b &&& FIFO_KEY_MASK ≠ 0xff := by omega
    have e1 : (b == 0x3F) = false := beq_false_of_ne h1
    have e2 : (b == 0x7F) = false := beq_false_of_ne h2
    have e5 : (b == 0x3E) = false := beq_false_of_ne h5
    have e6 : (b == 0x7E) = false := beq_false_of_ne h6
    have e7 : (b &&& FIFO_KEY_MASK != 0xff) = true := bne_iff_ne.mpr hne
    simp only [MAX7360Key.isEmpty, MAX7360Key.isOverflow, MAX7360Key.isKeyRepeat,
      MAX7360Key.hasKey, FIFO_EMPTY, FIFO_OVERFLOW, FIFO_KEY_REPEAT_MORE,
      FIFO_KEY_REPEAT_DONE, FIFO_KEY_NONE, e1, e2, e5, e6, e7]
    rfl

/-- C25: for every byte `b`, the event constructed from `b` satisfies exactly one of
`isEmpty()`, `isOverflow()`, `isKeyRepeat()` and `hasKey()`, and whenever `hasKey()` holds
`getRawKey()` is at most 63. -/
theorem event_classification_partition (keyMapping : Option MAX7360KeyMappingTable)
    (b : Nat) :
    (MAX7360Key.construct keyMapping b).isEmpty.toNat +
      (MAX7360Key.construct keyMapping b).isOverflow.toNat +
      (MAX7360Key.construct keyMapping b).isKeyRepeat.toNat +
      (MAX7360Key.construct keyMapping b).hasKey.toNat = 1 ∧
    ((MAX7360Key.construct keyMapping b).hasKey = true →
      (MAX7360Key.construct keyMapping b).getRawKey ≤ 63) := by
  refine ⟨fromRawValue_partition _ b, ?_⟩
  intro h
  have hk : (MAX7360Key.construct keyMapping b).rawKey ≠ FIFO_KEY_NONE := by
    simpa [MAX7360Key.hasKey] using h
  rcases fromRawValue_rawKey_range { keyMapping := keyMapping } b with h1 | h1
  · exact h1
  · exact absurd h1 hk

/-! ## readableToRaw returns the first match -/

/-- The loop of `readableToRaw` returns `FIFO_KEY_NONE` when none of the indices it visits
holds `c`. -/
theorem readableToRawLoop_none (table : List Nat) (c : Nat) :
    ∀ n ii, (∀ k, ii ≤ k → k < ii + n → table.getD k 0 ≠ c) →
      MAX7360KeyMappingTable.readableToRawLoop table c ii n = FIFO_KEY_NONE := by
  intro n
  induction n with
  | zero =>
    intro ii _
    rfl
  | succ n ih =>
    intro ii h
    rw [MAX7360KeyMappingTable.readableToRawLoop,
      if_neg (h ii (Nat.le_refl _) (by omega))]
    exact ih (ii + 1) (fun k hk1 hk2 => h k (by omega) (by omega))

/-- C26: for every table of size at most 64 and every character `c`, `readableToRaw(c)` returns
the smallest index whose slot holds `c`, and returns `FIFO_KEY_NONE` exactly when no slot
holds `c`; so for every index `i` inside the table `readableToRaw(rawToReadable(i))` is an
index `j <= i` with `rawToReadable(j) = rawToReadable(i)`. -/
theorem readableToRaw_first_match (t : MAX7360KeyMappingTable) (c : Nat)
    (hsize : t.tableSize ≤ 64) :
    (∀ i, i < t.tableSize → t.table.getD i 0 = c →
      ∃ j, j ≤ i ∧ t.readableToRaw c = j ∧ t.table.getD j 0 = c ∧
        ∀ k, k < j → t.table.getD k 0 ≠ c) ∧
    (t.readableToRaw c = FIFO_KEY_NONE ↔ ∀ k, k < t.tableSize → t.table.getD k 0 ≠ c) ∧
    (∀ i, i < t.tableSize →
      ∃ j, j ≤ i ∧ t.readableToRaw (t.rawToReadable i) = j ∧
        t.rawToReadable j = t.rawToReadable i) := by
  have hfirst : ∀ i, i < t.tableSize → t.table.getD i 0 = c →
      ∃ j, j ≤ i ∧ t.readableToRaw c = j ∧ t.table.getD j 0 = c ∧
        ∀ k, k < j → t.table.getD k 0 ≠ c := by
    intro i hi hc
    obtain ⟨j, _, j2, j3, j4, j5⟩ := readableToRawLoop_first t.table c t.tableSize 0 i
      (Nat.zero_le _) (by omega) hc
    refine ⟨j, j2, ?_, j3, fun k hk => j4 k (Nat.zero_le _) hk⟩
    unfold MAX7360KeyMappingTable.readableToRaw
    rw [j5]
    omega
  refine ⟨hfirst, ⟨?_, ?_⟩, ?_⟩
  · intro hnone k hk hc
    obtain ⟨j, j1, j2, _, _⟩ := hfirst k hk hc
    rw [hnone] at j2
    simp only [FIFO_KEY_NONE] at j2
    omega
  · intro h
    exact readableToRawLoop_none t.table c t.tableSize 0
      (fun k _ hk => h k (by omega))
  · intro i hi
    obtain ⟨j, j1, j2, j3, _⟩ := readableToRaw_rawToReadable t i hsize hi
    exact ⟨j, j1, j2, j3⟩

/-- Witness for C26: the symbol `9` in the phone table, first held by slot 10. -/
theorem readableToRaw_first_match_witness :
    MAX7360KeyMappingPhone.tableSize ≤ 64 ∧
    MAX7360KeyMappingPhone.readableToRaw '9'.toNat = 10 ∧
    (MAX7360KeyMappingPhone.readableToRaw '9'.toNat = FIFO_KEY_NONE ↔
      ∀ k, k < MAX7360KeyMappingPhone.tableSize →
        MAX7360KeyMappingPhone.table.getD k 0 ≠ '9'.toNat) :=
  ⟨by decide, by decide,
    (readableToRaw_first_match MAX7360KeyMappingPhone '9'.toNat (by decide)).2.1⟩

/-! ## The more flag of the special bytes -/

/-- C27: the more flag of the eight special bytes does not follow the bit-7 rule of the general
path: `hasMore()` is false for Empty (`0x3F`) and RepeatDone (`0x7E`), although their bit 7
is clear, and true for Overflow (`0x7F`), RepeatMore (`0x3E`) and the four key-62/63 bytes
`0xBE`, `0xBF`, `0xFE`, `0xFF`, although those four have bit 7 set; for every other byte
with bit 7 set `hasMore()` is false. -/
theorem hasMore_special_bytes (s : MAX7360Key) :
    ((s.fromRawValue 0x3F).hasMore = false ∧ (s.fromRawValue 0x7E).hasMore = false) ∧
    ((s.fromRawValue 0x7F).hasMore = true ∧ (s.fromRawValue 0x3E).hasMore = true) ∧
    ((s.fromRawValue 0xBE).hasMore = true ∧ (s.fromRawValue 0xBF).hasMore = true ∧
      (s.fromRawValue 0xFE).hasMore = true ∧ (s.fromRawValue 0xFF).hasMore = true) ∧
    ((0x3F : Nat).testBit 7 = false ∧ (0x7E : Nat).testBit 7 = false ∧
      (0xBE : Nat).testBit 7 = true ∧ (0xBF : Nat).testBit 7 = true ∧
      (0xFE : Nat).testBit 7 = true ∧ (0xFF : Nat).testBit 7 = true) ∧
    (∀ b, b < 256 → b ∉ specialBytes → b.testBit 7 = true →
      (s.fromRawValue b).hasMore = false) := by
  refine ⟨⟨rfl, rfl⟩, ⟨rfl, rfl⟩, ⟨rfl, rfl, rfl, rfl⟩, by decide, ?_⟩
  intro b hb hs h7
  rw [fromRawValue_default s b hs]
  simp only [MAX7360Key.hasMore, (byte_decode_bits b hb).1, h7]
  rfl

end MAX7360RK
